import Mathlib

/-!
Verification of the finago_api synchronization core
(`src/finago_api/...`) against its natural-language specification.

The Python code operates on the dynamically typed structures produced by
`xmltodict` (strings, dicts, lists, `None`, and occasionally booleans).
We embed that value universe as `Value`, Python exceptions as `PyErr`,
and translate each relevant function from the source, keeping the source
names where Lean allows it.  Fallible Python code is modelled with
`Except PyErr`.
-/

/-- The dynamic values flowing out of `xmltodict` and between the
extractors: `None`, strings, booleans, lists and dicts (dicts as
association lists in document order). -/
inductive Value where
  | vNull : Value
  | vStr : String → Value
  | vBool : Bool → Value
  | vList : List Value → Value
  | vDict : List (String × Value) → Value

/-- Python exception kinds relevant to this code base.  `sqliteError`
stands for any `sqlite3.Error` (including `InterfaceError` raised when a
parameter of an unsupported type is bound); `transportError` stands for
the request-layer exceptions a SOAP call can raise. -/
inductive PyErr where
  | indexError
  | typeError
  | attributeError
  | valueError
  | keyError
  | sqliteError
  | transportError
deriving DecidableEq

/-- Python truthiness for our value universe
(`bool(None) = bool("") = bool([]) = bool(\x7b\x7d) = False`). -/
def Value.truthy : Value → Bool
  | .vNull => false
  | .vStr s => !(s == "")
  | .vBool b => b
  | .vList l => !l.isEmpty
  | .vDict d => !d.isEmpty

/-- Python `a or b`: `a` when `a` is truthy, else `b`. -/
def pyOr (a b : Value) : Value :=
  if a.truthy then a else b

/-- Python `d.get(key)` on a dict: `none` when the key is absent. -/
def Value.get (d : List (String × Value)) (key : String) : Option Value :=
  (d.find? (fun p => p.1 == key)).map (fun p => p.2)

/-- Python `d.get(key)` collapsing absence to `None`, as the code does
when it immediately tests or branches on the result. -/
def Value.getD (d : List (String × Value)) (key : String) : Value :=
  match Value.get d key with
  | none => .vNull
  | some x => x

/-- Model of `finago_utils.v`: normalize values coming from xmltodict (may be
lists).  `val = d.get(key); if isinstance(val, list): val = val[0]`.
On an empty list `val[0]` raises IndexError. -/
def v (d : List (String × Value)) (key : String) : Except PyErr Value :=
  match Value.get d key with
  | none => .ok .vNull
  | some (.vList []) => .error .indexError
  | some (.vList (x :: _)) => .ok x
  | some val => .ok val

/-- The repeated-element retrieval pattern used at every extraction
boundary (`finago_invoices.py` lines 111-116, `finago_companies.py`
lines 53-58, `finago_persons.py` lines 175-180, `finago_products.py`
lines 70-76, `finago_transactions.py` lines 84-88, `finago_accounts.py`
lines 40-45):

    raw = []
    if isinstance(node, dict):
        raw = node.get(k1) or node.get(k2) or ... or []
    if isinstance(raw, dict):
        raw = [raw]

`keys` is the fallback chain of element names tried at that boundary. -/
def listOf (node : Value) (keys : List String) : Value :=
  let raw : Value :=
    match node with
    | .vDict d => pyOr (keys.foldl (fun acc k => pyOr acc (Value.getD d k)) .vNull) (.vList [])
    | _ => .vList []
  match raw with
  | .vDict dd => .vList [.vDict dd]
  | x => x

/-- Does this character count as whitespace for Python `str.strip()`
(space, tab, newline, carriage return, vertical tab, form feed)? -/
def isPySpace (c : Char) : Bool :=
  c.toNat = 32 || c.toNat = 9 || c.toNat = 10 || c.toNat = 13 || c.toNat = 11 || c.toNat = 12

/-- Strip leading and trailing Python whitespace from a character list. -/
def stripChars (l : List Char) : List Char :=
  ((l.dropWhile isPySpace).reverse.dropWhile isPySpace).reverse

/-- Python `s.strip()` on a string. -/
def pyStripStr (s : String) : String :=
  String.mk (stripChars s.data)

/-- Python `x.strip()` on an arbitrary value: AttributeError unless the
value is a string. -/
def pyStrip (x : Value) : Except PyErr String :=
  match x with
  | .vStr s => .ok (pyStripStr s)
  | _ => .error .attributeError

/-- ASCII lower-casing of one character (the strings compared in this
code are plain ASCII element content). -/
def lowerChar (c : Char) : Char :=
  if 65 ≤ c.toNat ∧ c.toNat ≤ 90 then Char.ofNat (c.toNat + 32) else c

/-- Python `s.lower()` on a string (ASCII fragment). -/
def pyLowerStr (s : String) : String :=
  String.mk (s.data.map lowerChar)

/-- Python `x.lower()` on an arbitrary value: AttributeError unless the
value is a string. -/
def pyLower (x : Value) : Except PyErr String :=
  match x with
  | .vStr s => .ok (pyLowerStr s)
  | _ => .error .attributeError

/-- Digits of a decimal literal: `none` unless nonempty and all digits. -/
def digitsToNat : List Char → Option Nat
  | [] => none
  | l => l.foldl (fun acc c => match acc with
      | none => none
      | some n => if c.isDigit then some (n * 10 + (c.toNat - 48)) else none)
      (some 0)

/-- Python `int(s)` for strings: surrounding whitespace allowed, one
optional sign, then decimal digits; anything else raises ValueError. -/
def intOfStr (s : String) : Option Int :=
  match stripChars s.data with
  | '+' :: rest => (digitsToNat rest).map Int.ofNat
  | '-' :: rest => (digitsToNat rest).map (fun n => -(n : Int))
  | l => (digitsToNat l).map Int.ofNat

/-- Python `int(val)` over our value universe: strings parse or raise
ValueError, booleans coerce, `None`/lists/dicts raise TypeError. -/
def pyInt : Value → Except PyErr Int
  | .vBool b => .ok (if b then 1 else 0)
  | .vStr s =>
      match intOfStr s with
      | some n => .ok n
      | none => .error .valueError
  | _ => .error .typeError

/-- Abstract carrier for the Python floats this code produces: the
literal `0.0` default, `float(s)` of a parsed string, or `float(b)` of a
boolean.  No claim below depends on float arithmetic, only on which of
these values is stored where. -/
inductive PFloat where
  | zero : PFloat
  | ofStr : String → PFloat
  | ofBool : Bool → PFloat
deriving DecidableEq

/-- Mantissa check for the decimal part of a float literal:
`digits`, `digits.`, `digits.digits` or `.digits`. -/
def mantissaOk (l : List Char) : Bool :=
  match l.span (fun c => c ≠ '.') with
  | (whole, []) => !whole.isEmpty && whole.all Char.isDigit
  | (whole, _ :: frac) =>
      (whole.all Char.isDigit && frac.all Char.isDigit) &&
        (!whole.isEmpty || !frac.isEmpty) && !frac.contains '.'

/-- Does `s` parse as a Python float literal?  Optional sign, decimal
mantissa, optional exponent (underscore separators and inf/nan words are
not produced by this wire format and are left out). -/
def floatParses (s : String) : Bool :=
  let core := fun (l : List Char) =>
    match l.span (fun c => c ≠ 'e' ∧ c ≠ 'E') with
    | (m, []) => mantissaOk m
    | (m, _ :: ex) =>
        mantissaOk m &&
          (match ex with
           | '+' :: ds => !ds.isEmpty && ds.all Char.isDigit
           | '-' :: ds => !ds.isEmpty && ds.all Char.isDigit
           | ds => !ds.isEmpty && ds.all Char.isDigit)
  match stripChars s.data with
  | '+' :: rest => core rest
  | '-' :: rest => core rest
  | l => core l

/-- The `_to_float` helper shared by the invoice, transaction and
product extractors: `0.0` for `None`/`""`, `float(val)` when that
succeeds, `0.0` when it raises TypeError or ValueError. -/
def to_float : Value → PFloat
  | .vNull => .zero
  | .vStr s => if s == "" then .zero else if floatParses s then .ofStr s else .zero
  | .vBool b => .ofBool b
  | _ => .zero

/-- The `_to_int` helper of the invoice and transaction extractors:
`None` for `None`/`""`, `int(val)` when that succeeds, `None` when it
raises TypeError or ValueError. -/
def to_int : Value → Option Int
  | .vNull => none
  | .vStr "" => none
  | val => match pyInt val with
      | .ok n => some n
      | .error _ => none

/-- The `_to_bool` helper of the invoice extractor: 1 for boolean `True`
or a string whose lower-case form is `true`, `1` or `yes`; 0 otherwise. -/
def to_bool : Value → Int
  | .vNull => 0
  | .vBool b => if b then 1 else 0
  | .vStr s =>
      if s == "" then 0
      else if pyLowerStr s == "true" || pyLowerStr s == "1" || pyLowerStr s == "yes" then 1
      else 0
  | _ => 0

/-- Python `str(val)` as used by the extractors.  Scalars render
faithfully; list/dict renderings are abbreviated since no property below
ever inspects the text of a stringified collection. -/
def pyStr : Value → String
  | .vNull => "None"
  | .vBool true => "True"
  | .vBool false => "False"
  | .vStr s => s
  | .vList _ => "[...]"
  | .vDict _ => "\x7b...\x7d"

/-- Did this computation succeed? -/
def exceptOk {ε α : Type} : Except ε α → Bool
  | .ok _ => true
  | .error _ => false

/-- Python short-circuiting `a or <expr>` where the right operand is a
computation that is only run when `a` is falsy. -/
def pyOrE (a : Value) (b : Except PyErr Value) : Except PyErr Value :=
  if a.truthy then .ok a else b

/-- Python `a or None` landing in an optional slot: `none` when falsy. -/
def pyOrNone (x : Value) : Option Value :=
  if x.truthy then some x else none

/-- Helper for `_v` applied to an arbitrary value: `d.get` exists only on dicts,
anything else raises AttributeError. -/
def vOf (x : Value) (key : String) : Except PyErr Value :=
  match x with
  | .vDict d => v d key
  | _ => .error .attributeError

/-! ## ChangedAfter filter normalization (C3) -/

/-- The ChangedAfter normalization shared by `finago_companies.py` line
20, `finago_persons.py` line 149, `finago_invoices.py` line 50 and
`finago_products.py` line 41:
`ds = changed_after if "T" in changed_after else changed_after + "T00:00:00"`. -/
def changedAfterDs (changed_after : String) : String :=
  if changed_after.data.contains 'T' then changed_after else changed_after ++ "T00:00:00"

/-- The date-window start built by `finago_transactions.py` line 61:
`ds = changed_after.split("T")[0] + "T00:00:00"`. -/
def transactionsDs (changed_after : String) : String :=
  String.mk (changed_after.data.takeWhile (fun c => c ≠ 'T')) ++ "T00:00:00"

/-! ## Invoice extractor (`finago_invoices.py`, lines 118-213) -/

/-- The canonical invoice record built by `download_invoices`, field for
field in the order of the dict literal at lines 185-208. -/
structure InvoiceRecord where
  invoiceId : Int
  orderId : Option Int
  customerId : Option Int
  customerName : Value
  invoiceNo : Value
  supplierName : Value
  supplierOrgNo : Value
  invoiceText : Value
  dateInvoiced : Value
  dateDue : Value
  datePaid : Option Value
  dateChanged : Value
  totalIncVat : PFloat
  totalVat : PFloat
  amountPaid : PFloat
  balance : PFloat
  currencySymbol : Value
  status : String
  externalStatus : String
  isCredited : Int

/-- Lines 148-153: unwrap a possibly-listed `Currency` node and read its
`Symbol` when it is a dict; otherwise the symbol stays `""`. -/
def currencySymbolOf (inv : List (String × Value)) : Except PyErr Value := do
  let c ← match Value.get inv "Currency" with
    | none => pure Value.vNull
    | some (.vList []) => throw PyErr.indexError
    | some (.vList (x :: _)) => pure x
    | some x => pure x
  match c with
  | .vDict d => do
      let s ← v d "Symbol"
      pure (pyOr s (.vStr ""))
  | _ => pure (Value.vStr "")

/-- The truth value of `paid_date and paid_date.strip()` (lines 167 and
197): falsy values short-circuit to false, truthy non-strings raise
AttributeError at `.strip()`. -/
def paidNonBlank (paid_date : Value) : Except PyErr Bool :=
  if paid_date.truthy then do
    let s ← pyStrip paid_date
    pure (!(s == ""))
  else
    pure false

/-- The status precedence of lines 165-172: credited wins, then a
non-blank `Paid` date, else Unpaid. -/
def invoiceStatus (is_credited : Int) (paid_date : Value) : Except PyErr String :=
  if is_credited ≠ 0 then pure "Credited"
  else do
    let b ← paidNonBlank paid_date
    pure (if b then "Paid" else "Unpaid")

/-- The `datePaid` entry of line 197:
`paid_date if paid_date and paid_date.strip() else None`. -/
def datePaidOf (paid_date : Value) : Except PyErr (Option Value) := do
  let b ← paidNonBlank paid_date
  pure (if b then some paid_date else none)

/-- The body of the `for inv in raw_items` loop of `download_invoices`
(lines 146-208), one raw item to one canonical record. -/
def extractInvoiceItem (inv : List (String × Value)) : Except PyErr InvoiceRecord := do
  let currency_symbol ← currencySymbolOf inv
  let paidRaw ← v inv "Paid"
  let paid_date := pyOr paidRaw (.vStr "")
  let creditedRaw ← v inv "IsCredited"
  let is_credited := to_bool creditedRaw
  let totalRaw ← v inv "OrderTotalIncVat"
  let total_inc_vat := to_float totalRaw
  let osRaw ← v inv "OrderStatus"
  let _order_status := pyOr osRaw (.vStr "Invoiced")
  let actual_status ← invoiceStatus is_credited paid_date
  let bal_paid :=
    if actual_status == "Paid" then (PFloat.zero, total_inc_vat)
    else if actual_status == "Credited" then (PFloat.zero, PFloat.zero)
    else (total_inc_vat, PFloat.zero)
  let invoiceIdRaw ← v inv "InvoiceId"
  let orderIdRaw ← v inv "OrderId"
  let customerIdRaw ← v inv "CustomerId"
  let customerNameRaw ← v inv "CustomerName"
  let invNo1 ← v inv "InvoiceNumber"
  let invNo ← pyOrE invNo1 (v inv "InvoiceNo")
  let supplierNameRaw ← v inv "SupplierName"
  let supplierOrgRaw ← v inv "SupplierOrganizationNumber"
  let text1 ← v inv "Text"
  let text ← pyOrE text1 (v inv "Description")
  let di1 ← v inv "DateInvoiced"
  let di ← pyOrE di1 (v inv "InvoiceDate")
  let dueRaw ← v inv "DueDate"
  let datePaidVal ← datePaidOf paid_date
  let dcRaw ← v inv "DateChanged"
  let totalVatRaw ← v inv "OrderTotalVat"
  let extRaw ← v inv "ExternalStatus"
  pure {
    invoiceId := (to_int invoiceIdRaw).getD 0
    orderId := to_int orderIdRaw
    customerId := to_int customerIdRaw
    customerName := pyOr customerNameRaw (.vStr "")
    invoiceNo := pyOr invNo (.vStr "")
    supplierName := pyOr supplierNameRaw (.vStr "")
    supplierOrgNo := pyOr supplierOrgRaw (.vStr "")
    invoiceText := pyOr text (.vStr "")
    dateInvoiced := pyOr di (.vStr "")
    dateDue := pyOr dueRaw (.vStr "")
    datePaid := datePaidVal
    dateChanged := pyOr dcRaw (.vStr "")
    totalIncVat := total_inc_vat
    totalVat := to_float totalVatRaw
    amountPaid := bal_paid.2
    balance := bal_paid.1
    currencySymbol := currency_symbol
    status := actual_status
    externalStatus := pyStr (pyOr extRaw (.vStr ""))
    isCredited := is_credited }

/-- The loop plus the final filter of `download_invoices` (lines
146-211): `invoices = [inv for inv in invoices if inv["invoiceId"]]`. -/
def extractInvoices (raw_items : List (List (String × Value))) :
    Except PyErr (List InvoiceRecord) := do
  let invoices ← raw_items.mapM extractInvoiceItem
  pure (invoices.filter (fun i => i.invoiceId != 0))

/-! ## Transaction extractor (`finago_transactions.py`) -/

/-- The three optional dimension ids produced by `extract_dimensions`. -/
structure Dims where
  customerId : Option Int
  projectId : Option Int
  departmentId : Option Int
deriving DecidableEq

/-- The initial `dims` dict of `extract_dimensions` (lines 14-18). -/
def dims0 : Dims := ⟨none, none, none⟩

/-- The body of the `for d in dim_items` loop of `extract_dimensions`
(lines 30-45).  `dim_type = (d.get("Type") or "").lower()`;
`dim_id = d.get("Id") or d.get("Value") or None`; a falsy id or a
ValueError from `int(dim_id)` skips the item; only ValueError is caught,
so `int` of a list or dict propagates TypeError. -/
def dimStep (dims : Dims) (d : Value) : Except PyErr Dims := do
  let dd ← match d with
    | .vDict dd => pure dd
    | _ => throw PyErr.attributeError
  let dim_type ← pyLower (pyOr (Value.getD dd "Type") (.vStr ""))
  let dim_id := pyOr (pyOr (Value.getD dd "Id") (Value.getD dd "Value")) .vNull
  if !dim_id.truthy then
    pure dims
  else
    match pyInt dim_id with
    | .error .valueError => pure dims
    | .error e => throw e
    | .ok n =>
        pure (if dim_type == "customer" then { dims with customerId := some n }
          else if dim_type == "project" then { dims with projectId := some n }
          else if dim_type == "department" then { dims with departmentId := some n }
          else dims)

/-- Model of `extract_dimensions` (lines 13-47): locate the nested dimension
list, wrap a bare dict, then fold `dimStep` over the items.  When the
located `dim_items` is not a list, Python iterates it: a non-empty
string yields characters (whose `.get` raises AttributeError), anything
else is not iterable (TypeError). -/
def extract_dimensions (t : List (String × Value)) : Except PyErr Dims := do
  let dim_root := pyOr (pyOr (Value.getD t "Dimensions") (Value.getD t "Dimension")) .vNull
  if !dim_root.truthy then
    pure dims0
  else
    let items0 : Value :=
      match dim_root with
      | .vDict d => pyOr (pyOr (Value.getD d "Dimension") (Value.getD d "Dimensions")) (.vList [])
      | _ => .vList []
    let dim_items : Value :=
      match items0 with
      | .vDict dd => .vList [.vDict dd]
      | x => x
    match dim_items with
    | .vList l => l.foldlM dimStep dims0
    | .vStr _ => throw PyErr.attributeError
    | _ => throw PyErr.typeError

/-- The canonical ledger-line record built by `download_transactions`
(dict literal at lines 111-130). -/
structure TransRecord where
  transactionId : Option Value
  voucherNo : Option Int
  lineNo : Option Int
  date : Value
  accountNo : String
  amount : PFloat
  debit : PFloat
  credit : PFloat
  currency : Value
  description : Value
  invoiceNo : Value
  linkId : Option Int
  ocr : Value
  customerId : Option Int
  projectId : Option Int
  departmentId : Option Int

/-- The body of the `for t in raw_items` loop of
`download_transactions` (lines 108-130). -/
def extractTransactionItem (t : List (String × Value)) : Except PyErr TransRecord := do
  let dims ← extract_dimensions t
  let idRaw ← v t "Id"
  let vnRaw ← v t "TransactionNo"
  let lnRaw ← v t "SequenceNo"
  let dateRaw ← v t "Date"
  let anRaw ← v t "AccountNo"
  let amRaw ← v t "Amount"
  let dbRaw ← v t "Debit"
  let crRaw ← v t "Credit"
  let cuRaw ← v t "Currency"
  let cm1 ← v t "Comment"
  let descr ← pyOrE cm1 (v t "Text")
  let inRaw ← v t "InvoiceNo"
  let liRaw ← v t "LinkId"
  let ocrRaw ← v t "OCR"
  pure {
    transactionId := pyOrNone idRaw
    voucherNo := to_int vnRaw
    lineNo := to_int lnRaw
    date := pyOr dateRaw (.vStr "")
    accountNo := pyStr (pyOr anRaw (.vStr ""))
    amount := to_float amRaw
    debit := to_float dbRaw
    credit := to_float crRaw
    currency := pyOr cuRaw (.vStr "")
    description := pyOr descr (.vStr "")
    invoiceNo := pyOr inRaw (.vStr "")
    linkId := to_int liRaw
    ocr := pyOr ocrRaw (.vStr "")
    customerId := dims.customerId
    projectId := dims.projectId
    departmentId := dims.departmentId }

/-- The full extraction loop of `download_transactions`; no primary-key
filter is applied to the result. -/
def extractTransactions (raw_items : List (List (String × Value))) :
    Except PyErr (List TransRecord) :=
  raw_items.mapM extractTransactionItem

/-! ## Person extractor (`finago_persons.py`) -/

/-- The canonical person record built by `download_persons` (dict
literal at lines 212-225).  `customerId` is kept equal to `companyId`
and `dateChanged` is always `None`, as in the source. -/
structure PersonRecord where
  personId : Int
  companyId : Option Int
  customerId : Option Int
  name : Option Value
  email : Option Value
  phone : Option Value
  role : Option Value
  dateChanged : Option Value

/-- The `for e in emails` search of `_extract_email` (lines 27-32):
first entry whose `Type` lower-cases to `primary`, with the errors
Python would raise on malformed entries. -/
def findPrimary : List Value → Except PyErr (Option Value)
  | [] => .ok none
  | e :: rest => do
      let tRaw ← vOf e "Type"
      let tl ← pyLower (pyOr tRaw (.vStr ""))
      if tl == "primary" then pure (some e) else findPrimary rest

/-- Model of `_extract_email` (lines 10-37): unwrap `EmailAddresses`, collect the
`EmailAddress` entries, prefer a `Type == "primary"` entry, else the
first; fall back to the flat `Email` field. -/
def _extract_email (p : List (String × Value)) : Except PyErr Value := do
  let ec ← match Value.getD p "EmailAddresses" with
    | .vList [] => throw PyErr.indexError
    | .vList (x :: _) => pure x
    | x => pure x
  match ec with
  | .vDict d =>
      let emails0 := pyOr (Value.getD d "EmailAddress") (.vList [])
      let emails : Value :=
        match emails0 with
        | .vDict dd => .vList [.vDict dd]
        | x => x
      match emails with
      | .vList (e0 :: rest) => do
          let primary ← findPrimary (e0 :: rest)
          let chosen :=
            match primary with
            | some e => if e.truthy then e else e0
            | none => e0
          vOf chosen "Value"
      | _ => v p "Email"
  | _ => v p "Email"

/-- The `for ph in phones` search of `_extract_phone` (lines 59-64):
first entry whose `Type` lower-cases to `mobile`. -/
def findMobile : List Value → Except PyErr (Option Value)
  | [] => .ok none
  | e :: rest => do
      let tRaw ← vOf e "Type"
      let tl ← pyLower (pyOr tRaw (.vStr ""))
      if tl == "mobile" then pure (some e) else findMobile rest

/-- Model of `_extract_phone` (lines 40-79): prefer a mobile entry's value, else
the first entry's value, then the flat `Phone`/`Mobile` fields; finally
`mobile or phone or ""`. -/
def _extract_phone (p : List (String × Value)) : Except PyErr Value := do
  let pc ← match Value.getD p "PhoneNumbers" with
    | .vList [] => throw PyErr.indexError
    | .vList (x :: _) => pure x
    | x => pure x
  let pair ← match pc with
    | .vDict d => do
        let phones0 := pyOr (Value.getD d "PhoneNumber") (.vList [])
        let phones : Value :=
          match phones0 with
          | .vDict dd => .vList [.vDict dd]
          | x => x
        match phones with
        | .vList (p0 :: rest) => do
            let mobRow ← findMobile (p0 :: rest)
            let mobile ← match mobRow with
              | some ph => if ph.truthy then vOf ph "Value" else pure Value.vNull
              | none => pure Value.vNull
            if mobile.truthy then
              pure (Value.vNull, mobile)
            else do
              let pv ← vOf p0 "Value"
              pure (pyOr pv .vNull, mobile)
        | _ => pure (Value.vNull, Value.vNull)
    | _ => pure (Value.vNull, Value.vNull)
  let phone ← if pair.1.truthy then pure pair.1 else v p "Phone"
  let mobile ← if pair.2.truthy then pure pair.2 else v p "Mobile"
  pure (pyOr (pyOr mobile phone) (.vStr ""))

/-- Model of `_extract_company_id_from_relations` (lines 82-124): first
`RelationData` entry's `CustomerId`, as an int; TypeError/ValueError
from the final `int` are swallowed to `None`. -/
def _extract_company_id_from_relations (p : List (String × Value)) :
    Except PyErr (Option Int) := do
  let rc ← match Value.getD p "RelationData" with
    | .vList [] => throw PyErr.indexError
    | .vList (x :: _) => pure x
    | x => pure x
  match rc with
  | .vDict d =>
      let rels0 := pyOr (Value.getD d "RelationData") (.vList [])
      let rels : Value :=
        match rels0 with
        | .vDict dd => .vList [.vDict dd]
        | x => x
      if !rels.truthy then pure none
      else do
        let first_rel ← match rels with
          | .vList (x :: _) => pure x
          | .vStr s =>
              match s.data with
              | c :: _ => pure (Value.vStr (String.mk [c]))
              | [] => throw PyErr.indexError
          | _ => throw PyErr.typeError
        let cid ← vOf first_rel "CustomerId"
        match cid with
        | .vNull => pure none
        | _ =>
            match pyInt cid with
            | .ok n => pure (some n)
            | .error _ => pure none
  | _ => pure none

/-- Space-joined name fragments, Python `" ".join(parts)`. -/
def joinSpace : List String → String
  | [] => ""
  | [s] => s
  | s :: rest => s ++ " " ++ joinSpace rest

/-- The elements of `[x for x in [first_name, last_name] if x]` must all
be strings for `" ".join` to succeed; otherwise TypeError. -/
def valuesAsStrs : List Value → Except PyErr (List String)
  | [] => .ok []
  | .vStr s :: rest => (valuesAsStrs rest).map (fun l => s :: l)
  | _ :: _ => .error .typeError

/-- The body of the `for p in raw_persons` loop of `download_persons`
(lines 184-225).  Note that no primary-key filter follows the loop: a
person whose `Id` is absent or unparsable is kept with `personId = 0`. -/
def extractPersonItem (p : List (String × Value)) : Except PyErr PersonRecord := do
  let fn ← v p "FirstName"
  let ln ← v p "LastName"
  let fullRaw ← v p "FullName"
  let full_name ←
    if fullRaw.truthy then pure fullRaw
    else do
      let parts ← valuesAsStrs ([fn, ln].filter Value.truthy)
      pure (Value.vStr (pyStripStr (joinSpace parts)))
  let email ← _extract_email p
  let phone_final ← _extract_phone p
  let fromRel ← _extract_company_id_from_relations p
  let company_id ← match fromRel with
    | some n => pure (some n)
    | none => do
        let cidRaw ← v p "CustomerId"
        if !cidRaw.truthy then pure (none : Option Int)
        else
          match pyInt cidRaw with
          | .ok n => pure (if n = 0 then none else some n)
          | .error _ => pure (none : Option Int)
  let idRaw ← v p "Id"
  let person_id : Int :=
    if !idRaw.truthy then 0
    else
      match pyInt idRaw with
      | .ok n => n
      | .error _ => 0
  let wp ← v p "WorkPosition"
  let role ← pyOrE wp (v p "Role")
  pure {
    personId := person_id
    companyId := company_id
    customerId := company_id
    name := pyOrNone full_name
    email := pyOrNone email
    phone := pyOrNone phone_final
    role := pyOrNone role
    dateChanged := none }

/-- The full extraction loop of `download_persons`; no primary-key
filter is applied to the result. -/
def extractPersons (raw_persons : List (List (String × Value))) :
    Except PyErr (List PersonRecord) :=
  raw_persons.mapM extractPersonItem

/-! ## Company extractor (`finago_companies.py`) -/

/-- The canonical company record built by `_download_companies` (dict
literal at lines 62-72). -/
structure CompanyRecord where
  companyId : Int
  companyName : Value
  organizationNo : Value
  customerNumber : String
  email : Value
  phone : Value
  dateChanged : Value

/-- The body of the `for c in raw_companies` loop (lines 61-72).
`companyId` is `int(_v(c,"CompanyId") or _v(c,"Id") or 0)` with no
try/except, so an unparsable id raises out of the whole download. -/
def extractCompanyItem (c : List (String × Value)) : Except PyErr CompanyRecord := do
  let cid1 ← v c "CompanyId"
  let cidv ← pyOrE cid1 (v c "Id")
  let companyId ← if cidv.truthy then pyInt cidv else pure (0 : Int)
  let cn1 ← v c "CompanyName"
  let cn ← pyOrE cn1 (v c "Name")
  let orgRaw ← v c "OrganizationNumber"
  let em1 ← v c "CompanyEmail"
  let em ← pyOrE em1 (v c "Email")
  let ph1 ← v c "CompanyPhone"
  let ph ← pyOrE ph1 (v c "Phone")
  let dc1 ← v c "ChangedAfter"
  let dc ← pyOrE dc1 (v c "ChangedDate")
  pure {
    companyId := companyId
    companyName := pyOr cn (.vStr "")
    organizationNo := pyOr orgRaw (.vStr "")
    customerNumber := ""
    email := pyOr em (.vStr "")
    phone := pyOr ph (.vStr "")
    dateChanged := pyOr dc (.vStr "") }

/-- The full extraction loop of `_download_companies`; no primary-key
filter is applied to the result. -/
def extractCompanies (raw_companies : List (List (String × Value))) :
    Except PyErr (List CompanyRecord) :=
  raw_companies.mapM extractCompanyItem

/-! ## Product extractor (`finago_products.py`) -/

/-- The canonical product record built by `download_products` (dict
literal at lines 90-104). -/
structure ProductRecord where
  productId : Int
  productNo : Value
  name : Value
  description : Value
  unitPrice : PFloat
  costPrice : PFloat
  isActive : Int
  vatCode : String
  dateChanged : Value

/-- The body of the `for p in raw_items` loop (lines 80-104).
`productId` is `int(_v(p,"Id") or _v(p,"ProductId") or 0)` with no
try/except. -/
def extractProductItem (p : List (String × Value)) : Except PyErr ProductRecord := do
  let id1 ← v p "Id"
  let idv ← pyOrE id1 (v p "ProductId")
  let productId ← if idv.truthy then pyInt idv else pure (0 : Int)
  let no1 ← v p "No"
  let no ← pyOrE no1 (v p "ProductNo")
  let nm1 ← v p "Name"
  let nm ← pyOrE nm1 (v p "ProductName")
  let desc ← v p "Description"
  let pr1 ← v p "Price"
  let pr ← pyOrE pr1 (v p "UnitPrice")
  let cp ← v p "CostPrice"
  let ia ← v p "IsActive"
  let vat1 ← v p "Vat"
  let vat ← pyOrE vat1 (v p "VatCode")
  let dc1 ← v p "DateChanged"
  let dc ← pyOrE dc1 (v p "ChangedDate")
  pure {
    productId := productId
    productNo := pyOr no (.vStr "")
    name := pyOr nm (.vStr "")
    description := pyOr desc (.vStr "")
    unitPrice := to_float pr
    costPrice := to_float cp
    isActive := if pyLowerStr (pyStr (pyOr ia (.vStr "true"))) == "true" then 1 else 0
    vatCode := pyStr (pyOr vat (.vStr ""))
    dateChanged := pyOr dc (.vStr "") }

/-- The full extraction loop of `download_products`; no primary-key
filter is applied to the result. -/
def extractProducts (raw_items : List (List (String × Value))) :
    Except PyErr (List ProductRecord) :=
  raw_items.mapM extractProductItem

/-! ## Account extractor (`finago_accounts.py`) -/

/-- The canonical account record built by `download_accounts` (dict
literal at lines 50-59). -/
structure AccountRecord where
  accountNo : String
  name : Value
  accountType : String
  isActive : Int
  vatCode : String
  openingBalance : PFloat
  closingBalance : PFloat

/-- The body of the `for a in raw_items` loop (lines 49-60). -/
def extractAccountItem (a : List (String × Value)) : Except PyErr AccountRecord := do
  let an ← v a "AccountNo"
  let nm ← v a "AccountName"
  let at1 ← v a "AccountTax"
  let tx ← v a "TaxNo"
  pure {
    accountNo := pyStr (pyOr an (.vStr ""))
    name := pyOr nm (.vStr "")
    accountType := pyStr (pyOr at1 (.vStr ""))
    isActive := 1
    vatCode := pyStr (pyOr tx (.vStr ""))
    openingBalance := PFloat.zero
    closingBalance := PFloat.zero }

/-- The full extraction loop of `download_accounts`. -/
def extractAccounts (raw_items : List (List (String × Value))) :
    Except PyErr (List AccountRecord) :=
  raw_items.mapM extractAccountItem

/-! ## Upsert store (`finago_db.py`)

The store is SQLite via Python `sqlite3`.  We model a bound SQL value
(`SqlVal`), a table as a list of key/column-list rows in insertion
order, and a connection as a committed database plus the pending state
of the open transaction.  Two SQLite behaviours matter here and are
modelled faithfully: binding a list or dict parameter raises
`InterfaceError` (a subclass of `sqlite3.Error`), and a NULL primary key
never conflicts with anything — `INSERT OR REPLACE`/`ON CONFLICT` treat
NULLs as pairwise distinct, so a NULL-keyed row is always appended. -/

/-- A value bound into a SQLite row. -/
inductive SqlVal where
  | sNull : SqlVal
  | sInt : Int → SqlVal
  | sReal : PFloat → SqlVal
  | sText : String → SqlVal
deriving DecidableEq

/-- Bind one Python value as a SQL parameter: `None`, strings, ints,
floats and booleans bind; lists and dicts raise `InterfaceError`. -/
def bindVal : Value → Except PyErr SqlVal
  | .vNull => .ok .sNull
  | .vStr s => .ok (.sText s)
  | .vBool b => .ok (.sInt (if b then 1 else 0))
  | .vList _ => .error .sqliteError
  | .vDict _ => .error .sqliteError

/-- Bind an optional int (`None` ↦ NULL). -/
def bindOptInt : Option Int → SqlVal
  | none => .sNull
  | some n => .sInt n

/-- Bind an optional Python value (`None` ↦ NULL). -/
def bindOptVal : Option Value → Except PyErr SqlVal
  | none => .ok .sNull
  | some x => bindVal x

/-- Insert-or-replace one row into a keyed table: a non-NULL key that is
already present overwrites that row in place; a fresh or NULL key
appends (SQLite never treats NULL keys as conflicting). -/
def upsertRow (t : List (SqlVal × List SqlVal)) (k : SqlVal) (r : List SqlVal) :
    List (SqlVal × List SqlVal) :=
  if k ≠ SqlVal.sNull ∧ t.any (fun p => p.1 == k) then
    t.map (fun p => if p.1 == k then (k, r) else p)
  else
    t ++ [(k, r)]

/-- Apply a list of already-bound rows in order. -/
def applyPairs (t : List (SqlVal × List SqlVal)) (ps : List (SqlVal × List SqlVal)) :
    List (SqlVal × List SqlVal) :=
  ps.foldl (fun acc p => upsertRow acc p.1 p.2) t

/-- Bind every record of a batch, stopping at the first failure. -/
def bindAll {ρ : Type} (bind1 : ρ → Except PyErr (SqlVal × List SqlVal)) :
    List ρ → Except PyErr (List (SqlVal × List SqlVal))
  | [] => .ok []
  | r :: rest => do
      let p ← bind1 r
      let ps ← bindAll bind1 rest
      pure (p :: ps)

/-- Execute a batch row by row (`executemany`, or the explicit loop of
`upsert_transactions`): rows before a failing one stay applied to the
pending state, and the first error is reported. -/
def applyMany {ρ : Type} (bind1 : ρ → Except PyErr (SqlVal × List SqlVal))
    (t : List (SqlVal × List SqlVal)) :
    List ρ → (List (SqlVal × List SqlVal)) × Option PyErr
  | [] => (t, none)
  | r :: rest =>
      match bind1 r with
      | .error e => (t, some e)
      | .ok (k, row) => applyMany bind1 (upsertRow t k row) rest

/-- The six tables created by `init_schema`. -/
structure DB where
  companies : List (SqlVal × List SqlVal)
  persons : List (SqlVal × List SqlVal)
  invoices : List (SqlVal × List SqlVal)
  products : List (SqlVal × List SqlVal)
  transactions : List (SqlVal × List SqlVal)
  accounts : List (SqlVal × List SqlVal)
deriving DecidableEq

/-- A freshly initialised database. -/
def DB.empty : DB := ⟨[], [], [], [], [], []⟩

/-- One sqlite3 connection: the durable committed state and the pending
state of the implicitly opened transaction.  `commit` makes pending
durable; an exception leaves pending as it was (sqlite3 does not roll
back automatically). -/
structure Conn where
  committed : DB
  pending : DB
deriving DecidableEq

/-- A connection to a fresh database. -/
def Conn.new : Conn := ⟨DB.empty, DB.empty⟩

/-- Model of `conn.commit()`. -/
def Conn.commit (c : Conn) : Conn := ⟨c.pending, c.pending⟩

/-- Key and non-key columns of `companies_sync` in the column order of
`upsert_companies` (key `companyId`; then companyName, organizationNo,
customerNumber, email, phone, dateChanged). -/
def bindCompanyRow (r : CompanyRecord) : Except PyErr (SqlVal × List SqlVal) := do
  let cn ← bindVal r.companyName
  let org ← bindVal r.organizationNo
  let em ← bindVal r.email
  let ph ← bindVal r.phone
  let dc ← bindVal r.dateChanged
  pure (.sInt r.companyId, [cn, org, .sText r.customerNumber, em, ph, dc])

/-- Key and non-key columns of `persons_sync` in the column order of
`upsert_persons` (key `personId`; then companyId, customerId, name,
email, phone, role, dateChanged). -/
def bindPersonRow (r : PersonRecord) : Except PyErr (SqlVal × List SqlVal) := do
  let nm ← bindOptVal r.name
  let em ← bindOptVal r.email
  let ph ← bindOptVal r.phone
  let ro ← bindOptVal r.role
  let dc ← bindOptVal r.dateChanged
  pure (.sInt r.personId,
    [bindOptInt r.companyId, bindOptInt r.customerId, nm, em, ph, ro, dc])

/-- Key and non-key columns of `invoices_sync` in the column order of
`upsert_invoices` (lines 230-245): key `invoiceId`; then orderId,
customerId, customerName, invoiceNo, supplierName, supplierOrgNo,
invoiceText, dateInvoiced, dateChanged, totalIncVat, totalVat,
currencySymbol, status, externalStatus.  The record's `amountPaid`,
`balance`, `dateDue`, `datePaid` and `isCredited` keys are never named
in the statement, so sqlite3 ignores them. -/
def bindInvoiceRow (e : InvoiceRecord) : Except PyErr (SqlVal × List SqlVal) := do
  let cn ← bindVal e.customerName
  let ino ← bindVal e.invoiceNo
  let sn ← bindVal e.supplierName
  let so ← bindVal e.supplierOrgNo
  let itx ← bindVal e.invoiceText
  let di ← bindVal e.dateInvoiced
  let dc ← bindVal e.dateChanged
  let cs ← bindVal e.currencySymbol
  pure (.sInt e.invoiceId,
    [bindOptInt e.orderId, bindOptInt e.customerId, cn, ino, sn, so, itx, di, dc,
      .sReal e.totalIncVat, .sReal e.totalVat, cs, .sText e.status, .sText e.externalStatus])

/-- Key and non-key columns of `products_sync` in the column order of
`upsert_products` (key `productId`; then productNo, name, description,
unitPrice, costPrice, isActive, vatCode, dateChanged). -/
def bindProductRow (r : ProductRecord) : Except PyErr (SqlVal × List SqlVal) := do
  let no ← bindVal r.productNo
  let nm ← bindVal r.name
  let de ← bindVal r.description
  let dc ← bindVal r.dateChanged
  pure (.sInt r.productId,
    [no, nm, de, .sReal r.unitPrice, .sReal r.costPrice, .sInt r.isActive,
      .sText r.vatCode, dc])

/-- Key and non-key columns of `transactions_sync` in the column order
of `upsert_transactions` (key `transactionId`; then voucherNo, lineNo,
date, accountNo, amount, debit, credit, currency, description,
invoiceNo, linkId, ocr, customerId, projectId, departmentId). -/
def bindTransRow (r : TransRecord) : Except PyErr (SqlVal × List SqlVal) := do
  let tid ← bindOptVal r.transactionId
  let dt ← bindVal r.date
  let cu ← bindVal r.currency
  let de ← bindVal r.description
  let ino ← bindVal r.invoiceNo
  let oc ← bindVal r.ocr
  pure (tid,
    [bindOptInt r.voucherNo, bindOptInt r.lineNo, dt, .sText r.accountNo,
      .sReal r.amount, .sReal r.debit, .sReal r.credit, cu, de, ino,
      bindOptInt r.linkId, oc, bindOptInt r.customerId, bindOptInt r.projectId,
      bindOptInt r.departmentId])

/-- Key and non-key columns of `accounts_sync` in the column order of
`upsert_accounts` (key `accountNo`; then name, accountType, isActive,
vatCode, openingBalance, closingBalance). -/
def bindAccountRow (r : AccountRecord) : Except PyErr (SqlVal × List SqlVal) := do
  let nm ← bindVal r.name
  pure (.sText r.accountNo,
    [nm, .sText r.accountType, .sInt r.isActive, .sText r.vatCode,
      .sReal r.openingBalance, .sReal r.closingBalance])

/-- Model of `upsert_companies` (lines 137-175): early return 0 on an empty
batch (no commit), otherwise `executemany` of INSERT .. ON CONFLICT DO
UPDATE over the pending state, commit, and return `len(rows)`.  A row
whose parameters fail to bind leaves the earlier rows pending and
raises without rollback. -/
def upsert_companies (conn : Conn) (companies : List CompanyRecord) :
    Except (PyErr × Conn) (Nat × Conn) :=
  if companies.isEmpty then .ok (0, conn)
  else
    match applyMany bindCompanyRow conn.pending.companies companies with
    | (t, some e) => .error (e, { conn with pending := { conn.pending with companies := t } })
    | (t, none) =>
        .ok (companies.length,
          ({ conn with pending := { conn.pending with companies := t } }).commit)

/-- Model of `upsert_persons` (lines 178-217), same shape as `upsert_companies`. -/
def upsert_persons (conn : Conn) (persons : List PersonRecord) :
    Except (PyErr × Conn) (Nat × Conn) :=
  if persons.isEmpty then .ok (0, conn)
  else
    match applyMany bindPersonRow conn.pending.persons persons with
    | (t, some e) => .error (e, { conn with pending := { conn.pending with persons := t } })
    | (t, none) =>
        .ok (persons.length,
          ({ conn with pending := { conn.pending with persons := t } }).commit)

/-- Model of `upsert_invoices` (lines 220-282), same shape as `upsert_companies`. -/
def upsert_invoices (conn : Conn) (invoices : List InvoiceRecord) :
    Except (PyErr × Conn) (Nat × Conn) :=
  if invoices.isEmpty then .ok (0, conn)
  else
    match applyMany bindInvoiceRow conn.pending.invoices invoices with
    | (t, some e) => .error (e, { conn with pending := { conn.pending with invoices := t } })
    | (t, none) =>
        .ok (invoices.length,
          ({ conn with pending := { conn.pending with invoices := t } }).commit)

/-- Model of `upsert_products` (lines 285-302): `executemany` of INSERT OR
REPLACE, commit, and return `cur.rowcount`, which for this statement is
the number of rows processed. -/
def upsert_products (conn : Conn) (products : List ProductRecord) :
    Except (PyErr × Conn) (Nat × Conn) :=
  if products.isEmpty then .ok (0, conn)
  else
    match applyMany bindProductRow conn.pending.products products with
    | (t, some e) => .error (e, { conn with pending := { conn.pending with products := t } })
    | (t, none) =>
        .ok (products.length,
          ({ conn with pending := { conn.pending with products := t } }).commit)

/-- Model of `upsert_transactions` (lines 305-337): an explicit per-row loop of
INSERT OR REPLACE; a `sqlite3.Error` on one row is printed and
re-raised, leaving the rows already executed in the pending state with
no rollback; on success commits and returns the number of rows
inserted, which equals `len(rows)`. -/
def upsert_transactions (conn : Conn) (rows : List TransRecord) :
    Except (PyErr × Conn) (Nat × Conn) :=
  if rows.isEmpty then .ok (0, conn)
  else
    match applyMany bindTransRow conn.pending.transactions rows with
    | (t, some e) => .error (e, { conn with pending := { conn.pending with transactions := t } })
    | (t, none) =>
        .ok (rows.length,
          ({ conn with pending := { conn.pending with transactions := t } }).commit)

/-- Model of `upsert_accounts` (lines 340-357), same shape as `upsert_products`. -/
def upsert_accounts (conn : Conn) (accounts : List AccountRecord) :
    Except (PyErr × Conn) (Nat × Conn) :=
  if accounts.isEmpty then .ok (0, conn)
  else
    match applyMany bindAccountRow conn.pending.accounts accounts with
    | (t, some e) => .error (e, { conn with pending := { conn.pending with accounts := t } })
    | (t, none) =>
        .ok (accounts.length,
          ({ conn with pending := { conn.pending with accounts := t } }).commit)

/-! ## Sync orchestrator (`finago_sync_cli.py`, `main`, lines 81-146)

Each download touches the network, so a run is parameterised by the
outcome of the six fetches (a fetch either returns its extracted records
or raises).  The download-and-persist block for each entity is one step
function.  Companies (lines 81-88) and persons (lines 90-98) are NOT
wrapped in try/except; invoices, products, transactions and accounts
(lines 100-146) each sit inside `try: ... except Exception: print(...)`. -/

/-- What the run reports for one entity: an upserted count, a "no data"
notice, or a caught failure. -/
inductive EntityResult where
  | upserted : Nat → EntityResult
  | noData : EntityResult
  | failed : EntityResult
deriving DecidableEq

/-- The outcomes of the six entity downloads for one run. -/
structure Fetches where
  companies : Except PyErr (List CompanyRecord)
  persons : Except PyErr (List PersonRecord)
  invoices : Except PyErr (List InvoiceRecord)
  products : Except PyErr (List ProductRecord)
  transactions : Except PyErr (List TransRecord)
  accounts : Except PyErr (List AccountRecord)

/-- The COMPANIES block (lines 81-88): no try/except, so a fetch or
persist exception propagates out of `main`. -/
def companiesStep (fetch : Except PyErr (List CompanyRecord)) (conn : Conn) :
    Except PyErr (Conn × EntityResult) := do
  let companies ← fetch
  if companies.isEmpty then pure (conn, .noData)
  else
    match upsert_companies conn companies with
    | .ok (n, c') => pure (c', .upserted n)
    | .error (e, _) => throw e

/-- The PERSONS block (lines 90-98): no try/except. -/
def personsStep (fetch : Except PyErr (List PersonRecord)) (conn : Conn) :
    Except PyErr (Conn × EntityResult) := do
  let persons ← fetch
  if persons.isEmpty then pure (conn, .noData)
  else
    match upsert_persons conn persons with
    | .ok (n, c') => pure (c', .upserted n)
    | .error (e, _) => throw e

/-- The INVOICES block (lines 100-110): the whole fetch-and-persist is
wrapped in try/except, so any exception is logged and the run carries
on; a persist exception keeps the partially filled pending state. -/
def invoicesStep (fetch : Except PyErr (List InvoiceRecord)) (conn : Conn) :
    Conn × EntityResult :=
  match fetch with
  | .error _ => (conn, .failed)
  | .ok invoices =>
      if invoices.isEmpty then (conn, .noData)
      else
        match upsert_invoices conn invoices with
        | .ok (n, c') => (c', .upserted n)
        | .error (_, c') => (c', .failed)

/-- The PRODUCTS block (lines 112-122), wrapped in try/except. -/
def productsStep (fetch : Except PyErr (List ProductRecord)) (conn : Conn) :
    Conn × EntityResult :=
  match fetch with
  | .error _ => (conn, .failed)
  | .ok products =>
      if products.isEmpty then (conn, .noData)
      else
        match upsert_products conn products with
        | .ok (n, c') => (c', .upserted n)
        | .error (_, c') => (c', .failed)

/-- The TRANSACTIONS block (lines 124-134), wrapped in try/except. -/
def transactionsStep (fetch : Except PyErr (List TransRecord)) (conn : Conn) :
    Conn × EntityResult :=
  match fetch with
  | .error _ => (conn, .failed)
  | .ok rows =>
      if rows.isEmpty then (conn, .noData)
      else
        match upsert_transactions conn rows with
        | .ok (n, c') => (c', .upserted n)
        | .error (_, c') => (c', .failed)

/-- The ACCOUNTS block (lines 136-146), wrapped in try/except. -/
def accountsStep (fetch : Except PyErr (List AccountRecord)) (conn : Conn) :
    Conn × EntityResult :=
  match fetch with
  | .error _ => (conn, .failed)
  | .ok accounts =>
      if accounts.isEmpty then (conn, .noData)
      else
        match upsert_accounts conn accounts with
        | .ok (n, c') => (c', .upserted n)
        | .error (_, c') => (c', .failed)

/-- The download-and-persist section of `main` (lines 81-146): the six
entity blocks in source order on one shared connection.  An exception
escaping the companies or persons block aborts the run; the other four
blocks always complete. -/
def runSync (f : Fetches) (conn : Conn) : Except PyErr (Conn × List EntityResult) := do
  let s1 ← companiesStep f.companies conn
  let s2 ← personsStep f.persons s1.1
  let s3 := invoicesStep f.invoices s2.1
  let s4 := productsStep f.products s3.1
  let s5 := transactionsStep f.transactions s4.1
  let s6 := accountsStep f.accounts s5.1
  pure (s6.1, [s1.2, s2.2, s3.2, s4.2, s5.2, s6.2])

/-! ## Spec-side predicates and concrete fixtures -/

/-- Spec wording (claim C1): `IsCredited` parses as true exactly when it
is boolean true or a string whose lower-case form is `true`, `1` or
`yes`.  Stated from the spec text, to be compared with `to_bool`. -/
def isCreditedTrueSpec : Value → Bool
  | .vBool true => true
  | .vStr s => pyLowerStr s == "true" || pyLowerStr s == "1" || pyLowerStr s == "yes"
  | _ => false

/-- Spec wording (claim C1): the `Paid` field is present and non-blank
after stripping whitespace.  Stated from the spec text. -/
def paidPresentSpec : Value → Bool
  | .vStr s => !(pyStripStr s == "")
  | _ => false

/-- Placeholder record used only as the impossible fallback arm of the
concrete-fixture matches below. -/
def junkInvoice : InvoiceRecord where
  invoiceId := 0
  orderId := none
  customerId := none
  customerName := Value.vNull
  invoiceNo := Value.vNull
  supplierName := Value.vNull
  supplierOrgNo := Value.vNull
  invoiceText := Value.vNull
  dateInvoiced := Value.vNull
  dateDue := Value.vNull
  datePaid := none
  dateChanged := Value.vNull
  totalIncVat := PFloat.zero
  totalVat := PFloat.zero
  amountPaid := PFloat.zero
  balance := PFloat.zero
  currencySymbol := Value.vNull
  status := ""
  externalStatus := ""
  isCredited := 0

/-- A raw credited invoice item (fixture for claim C1). -/
def c1Item : List (String × Value) :=
  [("InvoiceId", Value.vStr "7"), ("IsCredited", Value.vStr "TRUE"),
    ("Paid", Value.vStr "2024-01-01"), ("OrderTotalIncVat", Value.vStr "100.5")]

/-- The record extracted from `c1Item`. -/
def c1Rec : InvoiceRecord :=
  match extractInvoiceItem c1Item with
  | .ok r => r
  | .error _ => junkInvoice

/-- An ordinary extracted invoice record (fixture for several claims). -/
def sampleInvoice : InvoiceRecord where
  invoiceId := 7
  orderId := some 3
  customerId := some 11
  customerName := Value.vStr "Acme"
  invoiceNo := Value.vStr "INV-7"
  supplierName := Value.vStr ""
  supplierOrgNo := Value.vStr ""
  invoiceText := Value.vStr "subscription"
  dateInvoiced := Value.vStr "2024-01-01"
  dateDue := Value.vStr "2024-02-01"
  datePaid := none
  dateChanged := Value.vStr "2024-01-05"
  totalIncVat := PFloat.ofStr "100.5"
  totalVat := PFloat.ofStr "20.1"
  amountPaid := PFloat.zero
  balance := PFloat.ofStr "100.5"
  currencySymbol := Value.vStr "NOK"
  status := "Unpaid"
  externalStatus := ""
  isCredited := 0

/-- A ledger-line record whose `Id` was absent on the wire, exactly as
`extractTransactionItem` produces it (`transactionId = None`). -/
def nullTransRec : TransRecord where
  transactionId := none
  voucherNo := none
  lineNo := none
  date := Value.vStr ""
  accountNo := ""
  amount := PFloat.zero
  debit := PFloat.zero
  credit := PFloat.zero
  currency := Value.vStr ""
  description := Value.vStr ""
  invoiceNo := Value.vStr ""
  linkId := none
  ocr := Value.vStr ""
  customerId := none
  projectId := none
  departmentId := none

/-- An ordinary extracted account record. -/
def sampleAccount : AccountRecord where
  accountNo := "1000"
  name := Value.vStr "Cash"
  accountType := ""
  isActive := 1
  vatCode := ""
  openingBalance := PFloat.zero
  closingBalance := PFloat.zero

/-- Fetch outcomes where only the companies download raises (fixture
for claim C2): every other entity has data or an empty result. -/
def c2Fetches : Fetches where
  companies := .error .transportError
  persons := .ok []
  invoices := .ok [sampleInvoice]
  products := .ok []
  transactions := .ok []
  accounts := .ok []

/-- Fetch outcomes where companies and persons succeed and the invoices
download raises (fixture for claim C2). -/
def c2OkFetches : Fetches where
  companies := .ok []
  persons := .ok []
  invoices := .error .transportError
  products := .ok []
  transactions := .ok []
  accounts := .ok []

/-- Raw invoice items: one with `InvoiceId` 0 and one with id 5
(fixture for claim C4). -/
def c4Items : List (List (String × Value)) :=
  [[("InvoiceId", Value.vStr "0")], [("InvoiceId", Value.vStr "5")]]

/-- The invoice records extracted from `c4Items`. -/
def c4Res : List InvoiceRecord :=
  match extractInvoices c4Items with
  | .ok l => l
  | .error _ => []

/-- The first record extracted from `c4Items`. -/
def c4Head : InvoiceRecord := c4Res.headD junkInvoice

/-- The person records extracted from one empty raw item. -/
def c4PRes : List PersonRecord :=
  match extractPersons [[]] with
  | .ok l => l
  | .error _ => []

/-- The connection after upserting `[nullTransRec]` once into a fresh
store (fixture for claim C5). -/
def cT1 : Conn :=
  match upsert_transactions Conn.new [nullTransRec] with
  | .ok p => p.2
  | .error p => p.2

/-- The connection after upserting `[nullTransRec]` a second time. -/
def cT2 : Conn :=
  match upsert_transactions cT1 [nullTransRec] with
  | .ok p => p.2
  | .error p => p.2

/-- The connection after upserting `[sampleInvoice]` into a fresh store
(fixture for the claim C5 witness). -/
def c5Conn1 : Conn :=
  match upsert_invoices Conn.new [sampleInvoice] with
  | .ok p => p.2
  | .error p => p.2

/-- A well-formed ledger line (fixture for claim C6). -/
def c6TransGood : TransRecord :=
  { nullTransRec with transactionId := some (Value.vStr "t1") }

/-- A malformed ledger line: its `date` is a nested dict, which sqlite3
cannot bind (`InterfaceError`, an `sqlite3.Error`). -/
def c6TransBad : TransRecord :=
  { nullTransRec with date := Value.vDict [("attr", Value.vStr "x")] }

/-- The connection left behind by the failing two-row transaction batch
of claim C6. -/
def c6Conn1 : Conn :=
  match upsert_transactions Conn.new [c6TransGood, c6TransBad] with
  | .ok p => p.2
  | .error p => p.2

/-- A rewrite of the five derived invoice fields that `upsert_invoices`
never binds (fixture for claim C10). -/
def c10Mod (e : InvoiceRecord) : InvoiceRecord :=
  { e with
    amountPaid := PFloat.ofStr "999"
    balance := PFloat.ofStr "999"
    dateDue := Value.vStr "2099-01-01"
    datePaid := some (Value.vStr "2099-01-01")
    isCredited := 1 }

/-! ## General lemmas: Except plumbing and list facts -/

theorem except_bind_ok {ε α β : Type} (a : α) (f : α → Except ε β) :
    (Except.ok a >>= f) = f a := rfl

theorem except_bind_err {ε α β : Type} (e : ε) (f : α → Except ε β) :
    ((Except.error e : Except ε α) >>= f) = .error e := rfl

theorem except_pure_eq {ε α : Type} (a : α) : (pure a : Except ε α) = .ok a := rfl

/-- A successful `mapM` over `Except` preserves length. -/
theorem mapM_ok_length {α β : Type} (f : α → Except PyErr β) :
    ∀ (l : List α) (res : List β), l.mapM f = .ok res → res.length = l.length := by
  intro l
  induction l with
  | nil =>
      intro res h
      simp only [List.mapM_nil, except_pure_eq] at h
      cases h
      rfl
  | cons a t ih =>
      intro res h
      rw [List.mapM_cons] at h
      cases hf : f a with
      | error e => rw [hf, except_bind_err] at h; cases h
      | ok b =>
          rw [hf, except_bind_ok] at h
          cases ht : t.mapM f with
          | error e => rw [ht, except_bind_err] at h; cases h
          | ok bs =>
              rw [ht, except_bind_ok, except_pure_eq] at h
              cases h
              simp [ih bs ht]

/-! ## General lemmas: the keyed-table algebra behind the upserts -/

theorem upsertRow_keys_of_replace (t : List (SqlVal × List SqlVal)) (k : SqlVal)
    (r : List SqlVal) (hk : k ≠ SqlVal.sNull) (hmem : t.any (fun p => p.1 == k) = true) :
    upsertRow t k r = t.map (fun p => if p.1 == k then (k, r) else p) := by
  unfold upsertRow
  rw [if_pos ⟨hk, hmem⟩]

theorem upsertRow_append (t : List (SqlVal × List SqlVal)) (k : SqlVal)
    (r : List SqlVal) (h : ¬(k ≠ SqlVal.sNull ∧ t.any (fun p => p.1 == k) = true)) :
    upsertRow t k r = t ++ [(k, r)] := by
  unfold upsertRow
  rw [if_neg h]

/-- Mapping the in-place replacement over a table keeps the key list. -/
theorem map_fst_upsert_replace (t : List (SqlVal × List SqlVal)) (k : SqlVal)
    (r : List SqlVal) :
    (t.map (fun p => if p.1 == k then (k, r) else p)).map Prod.fst = t.map Prod.fst := by
  induction t with
  | nil => rfl
  | cons q qs ih =>
      simp only [List.map_cons, ih]
      congr 1
      by_cases hq : q.1 == k
      · rw [if_pos hq]
        exact (eq_of_beq hq).symm
      · rw [if_neg hq]

/-- Upserting never loses keys. -/
theorem mem_keys_upsertRow (t : List (SqlVal × List SqlVal)) (k a : SqlVal)
    (r : List SqlVal) (ha : a ∈ t.map Prod.fst) :
    a ∈ (upsertRow t k r).map Prod.fst := by
  unfold upsertRow
  split
  · rw [map_fst_upsert_replace]
    exact ha
  · rw [List.map_append]
    exact List.mem_append_left _ ha

/-- The upserted key is always present afterwards. -/
theorem mem_keys_upsertRow_self (t : List (SqlVal × List SqlVal)) (k : SqlVal)
    (r : List SqlVal) : k ∈ (upsertRow t k r).map Prod.fst := by
  unfold upsertRow
  split
  · rename_i hcond
    rw [map_fst_upsert_replace]
    obtain ⟨q, hq, hqk⟩ := List.any_eq_true.mp hcond.2
    exact List.mem_map.mpr ⟨q, hq, eq_of_beq hqk⟩
  · rw [List.map_append]
    exact List.mem_append_right _ (by simp)

/-- Key presence as a boolean `any`. -/
theorem any_beq_iff_mem_keys (t : List (SqlVal × List SqlVal)) (k : SqlVal) :
    t.any (fun p => p.1 == k) = true ↔ k ∈ t.map Prod.fst := by
  rw [List.any_eq_true]
  constructor
  · rintro ⟨p, hp, hpk⟩
    exact List.mem_map.mpr ⟨p, hp, eq_of_beq hpk⟩
  · intro hk
    obtain ⟨p, hp, hpk⟩ := List.mem_map.mp hk
    exact ⟨p, hp, beq_iff_eq.mpr hpk⟩

/-- Replacing twice at the same key keeps only the second write. -/
theorem map_replace_replace (t : List (SqlVal × List SqlVal)) (k : SqlVal)
    (r r' : List SqlVal) :
    ((t.map (fun p => if p.1 == k then (k, r) else p)).map
        (fun p => if p.1 == k then (k, r') else p)) =
      t.map (fun p => if p.1 == k then (k, r') else p) := by
  induction t with
  | nil => rfl
  | cons q qs ih =>
      simp only [List.map_cons, ih]
      by_cases hq : (q.1 == k) = true
      · simp [hq]
      · simp [hq]

/-- Replacing at an absent key does nothing. -/
theorem map_replace_of_not_mem (t : List (SqlVal × List SqlVal)) (k : SqlVal)
    (r : List SqlVal) (h : t.any (fun p => p.1 == k) = false) :
    t.map (fun p => if p.1 == k then (k, r) else p) = t := by
  induction t with
  | nil => rfl
  | cons q qs ih =>
      simp only [List.any_cons, Bool.or_eq_false_iff] at h
      simp only [List.map_cons, ih h.2]
      rw [if_neg (by simp [h.1])]

/-- Writing at `k` and then at the same `k` is the same as writing the
second row directly. -/
theorem upsertRow_upsertRow_same (t : List (SqlVal × List SqlVal)) (k : SqlVal)
    (r r' : List SqlVal) (hk : k ≠ SqlVal.sNull) :
    upsertRow (upsertRow t k r) k r' = upsertRow t k r' := by
  by_cases hmem : t.any (fun p => p.1 == k) = true
  · rw [upsertRow_keys_of_replace t k r hk hmem, upsertRow_keys_of_replace _ k r' hk
      (by rw [any_beq_iff_mem_keys, map_fst_upsert_replace, ← any_beq_iff_mem_keys]; exact hmem),
      upsertRow_keys_of_replace t k r' hk hmem]
    exact map_replace_replace t k r r'
  · have hfalse : t.any (fun p => p.1 == k) = false := by
      cases h : t.any (fun p => p.1 == k)
      · rfl
      · exact absurd h hmem
    rw [upsertRow_append t k r (fun hc => hmem hc.2), upsertRow_append t k r' (fun hc => hmem hc.2)]
    rw [upsertRow_keys_of_replace _ k r' hk
      (by rw [List.any_append]; simp)]
    rw [List.map_append, map_replace_of_not_mem t k r' hfalse]
    simp

/-- In-place replacements at two distinct keys commute. -/
theorem map_replace_comm (t : List (SqlVal × List SqlVal)) (k k' : SqlVal)
    (r r' : List SqlVal) (hne : k ≠ k') :
    ((t.map (fun p => if p.1 == k then (k, r) else p)).map
        (fun p => if p.1 == k' then (k', r') else p)) =
      ((t.map (fun p => if p.1 == k' then (k', r') else p)).map
        (fun p => if p.1 == k then (k, r) else p)) := by
  induction t with
  | nil => rfl
  | cons q qs ih =>
      simp only [List.map_cons, ih]
      by_cases hq : (q.1 == k) = true
      · have hq' : (q.1 == k') = false := by
          rw [eq_of_beq hq]
          exact beq_eq_false_iff_ne.mpr hne
        simp [hq, hq', beq_eq_false_iff_ne.mpr hne]
      · by_cases hq' : (q.1 == k') = true
        · simp [hq, hq', beq_eq_false_iff_ne.mpr (Ne.symm hne)]
        · simp [hq, hq']

/-- Upserts at distinct keys commute when the first key is present and
not NULL (the second may be anything, including NULL or fresh). -/
theorem upsertRow_comm (t : List (SqlVal × List SqlVal)) (k k' : SqlVal)
    (r r' : List SqlVal) (hne : k ≠ k') (hk : k ≠ SqlVal.sNull)
    (hmem : k ∈ t.map Prod.fst) :
    upsertRow (upsertRow t k r) k' r' = upsertRow (upsertRow t k' r') k r := by
  have hany : t.any (fun p => p.1 == k) = true := (any_beq_iff_mem_keys t k).mpr hmem
  by_cases hc' : k' ≠ SqlVal.sNull ∧ t.any (fun p => p.1 == k') = true
  · rw [upsertRow_keys_of_replace t k r hk hany,
      upsertRow_keys_of_replace _ k' r' hc'.1
        (by rw [any_beq_iff_mem_keys, map_fst_upsert_replace, ← any_beq_iff_mem_keys]; exact hc'.2),
      upsertRow_keys_of_replace t k' r' hc'.1 hc'.2,
      upsertRow_keys_of_replace _ k r hk
        (by rw [any_beq_iff_mem_keys, map_fst_upsert_replace, ← any_beq_iff_mem_keys]; exact hany)]
    exact map_replace_comm t k k' r r' hne
  · rw [upsertRow_keys_of_replace t k r hk hany]
    rw [upsertRow_append _ k' r' (by
      intro hcon
      exact hc' ⟨hcon.1, by
        have := hcon.2
        rw [any_beq_iff_mem_keys, map_fst_upsert_replace, ← any_beq_iff_mem_keys] at this
        exact this⟩)]
    rw [upsertRow_append t k' r' (fun hcon => hc' hcon)]
    rw [upsertRow_keys_of_replace _ k r hk (by rw [List.any_append]; simp [hany])]
    rw [List.map_append, List.map_singleton]
    simp [beq_eq_false_iff_ne.mpr (Ne.symm hne)]

/-- After upserting at a non-NULL key, every row with that key holds the
written values. -/
theorem valAt_upsertRow_self (t : List (SqlVal × List SqlVal)) (k : SqlVal)
    (r : List SqlVal) (hk : k ≠ SqlVal.sNull) :
    ∀ q ∈ upsertRow t k r, q.1 = k → q.2 = r := by
  intro q hq hqk
  unfold upsertRow at hq
  by_cases hc : k ≠ SqlVal.sNull ∧ t.any (fun p => p.1 == k) = true
  · rw [if_pos hc] at hq
    obtain ⟨p, _, hpq⟩ := List.mem_map.mp hq
    by_cases hpk : (p.1 == k) = true
    · rw [if_pos hpk] at hpq
      rw [← hpq]
    · rw [if_neg hpk] at hpq
      rw [← hpq] at hqk
      exact absurd (beq_iff_eq.mpr hqk) hpk
  · rw [if_neg hc] at hq
    have hfalse : t.any (fun p => p.1 == k) = false := by
      cases h : t.any (fun p => p.1 == k)
      · rfl
      · exact absurd ⟨hk, h⟩ hc
    rcases List.mem_append.mp hq with hin | hlast
    · have htrue : t.any (fun p => p.1 == k) = true :=
        List.any_eq_true.mpr ⟨q, hin, beq_iff_eq.mpr hqk⟩
      rw [htrue] at hfalse
      cases hfalse
    · have hq' : q = (k, r) := List.mem_singleton.mp hlast
      rw [hq']

/-- Upserting at one key does not change the stored values at a
different key. -/
theorem valAt_upsertRow_other (t : List (SqlVal × List SqlVal)) (k0 k : SqlVal)
    (r0 r : List SqlVal) (hne : k0 ≠ k)
    (hval : ∀ q ∈ t, q.1 = k → q.2 = r) :
    ∀ q ∈ upsertRow t k0 r0, q.1 = k → q.2 = r := by
  intro q hq hqk
  unfold upsertRow at hq
  split at hq
  · obtain ⟨p, hp, hpq⟩ := List.mem_map.mp hq
    by_cases hpk : (p.1 == k0) = true
    · rw [if_pos hpk] at hpq
      rw [← hpq] at hqk
      exact absurd hqk hne
    · rw [if_neg hpk] at hpq
      exact hval q (hpq ▸ hp) hqk
  · rcases List.mem_append.mp hq with hin | hlast
    · exact hval q hin hqk
    · have hq' : q = (k0, r0) := List.mem_singleton.mp hlast
      rw [hq'] at hqk
      exact absurd hqk hne

/-- Folding pairs whose keys avoid `k` preserves the values stored at
`k`. -/
theorem valAt_applyPairs (ps : List (SqlVal × List SqlVal)) (k : SqlVal) (r : List SqlVal) :
    ∀ (t : List (SqlVal × List SqlVal)), k ∉ ps.map Prod.fst →
      (∀ q ∈ t, q.1 = k → q.2 = r) →
      ∀ q ∈ applyPairs t ps, q.1 = k → q.2 = r := by
  induction ps with
  | nil => intro t _ hval; exact hval
  | cons p0 ps ih =>
      intro t hnot hval
      have hne : p0.1 ≠ k := by
        intro h
        exact hnot (List.mem_map.mpr ⟨p0, List.mem_cons_self _ _, h⟩)
      have hnot' : k ∉ ps.map Prod.fst := fun h =>
        hnot (by rw [List.map_cons]; exact List.mem_cons_of_mem _ h)
      exact ih (upsertRow t p0.1 p0.2) hnot'
        (valAt_upsertRow_other t p0.1 k p0.2 r hne hval)

/-- Re-upserting the values already stored at a present non-NULL key is
a no-op. -/
theorem upsertRow_absorb (t : List (SqlVal × List SqlVal)) (k : SqlVal)
    (r : List SqlVal) (hk : k ≠ SqlVal.sNull) (hmem : k ∈ t.map Prod.fst)
    (hval : ∀ q ∈ t, q.1 = k → q.2 = r) :
    upsertRow t k r = t := by
  rw [upsertRow_keys_of_replace t k r hk ((any_beq_iff_mem_keys t k).mpr hmem)]
  have : ∀ p ∈ t, (if p.1 == k then (k, r) else p) = p := by
    intro p hp
    by_cases hpk : (p.1 == k) = true
    · rw [if_pos hpk]
      have h1 : p.1 = k := eq_of_beq hpk
      have h2 : p.2 = r := hval p hp h1
      rw [← h1, ← h2]
    · rw [if_neg hpk]
  calc t.map (fun p => if p.1 == k then (k, r) else p) = t.map id := List.map_congr_left this
    _ = t := List.map_id t

theorem applyPairs_nil (t : List (SqlVal × List SqlVal)) : applyPairs t [] = t := rfl

theorem applyPairs_cons (t : List (SqlVal × List SqlVal)) (p : SqlVal × List SqlVal)
    (ps : List (SqlVal × List SqlVal)) :
    applyPairs t (p :: ps) = applyPairs (upsertRow t p.1 p.2) ps := rfl

/-- Folding pairs never loses keys. -/
theorem mem_keys_applyPairs (ps : List (SqlVal × List SqlVal)) (a : SqlVal) :
    ∀ t, a ∈ t.map Prod.fst → a ∈ (applyPairs t ps).map Prod.fst := by
  induction ps with
  | nil => intro t h; exact h
  | cons p ps ih =>
      intro t h
      rw [applyPairs_cons]
      exact ih _ (mem_keys_upsertRow t p.1 a p.2 h)

/-- A write at a present non-NULL key that the remaining pairs write
again is redundant. -/
theorem applyPairs_drop (ps : List (SqlVal × List SqlVal)) (k : SqlVal) :
    ∀ (t : List (SqlVal × List SqlVal)) (r : List SqlVal), k ≠ SqlVal.sNull →
      k ∈ t.map Prod.fst → k ∈ ps.map Prod.fst →
      applyPairs (upsertRow t k r) ps = applyPairs t ps := by
  induction ps with
  | nil => intro t r _ _ h; cases h
  | cons p0 ps ih =>
      intro t r hk hmem hin
      by_cases h0 : p0.1 = k
      · rw [applyPairs_cons, applyPairs_cons]
        rw [h0, upsertRow_upsertRow_same t k r p0.2 hk]
      · have hin' : k ∈ ps.map Prod.fst := by
          rcases List.mem_map.mp hin with ⟨q, hq, hqk⟩
          rcases List.mem_cons.mp hq with rfl | hq'
          · exact absurd hqk h0
          · exact List.mem_map.mpr ⟨q, hq', hqk⟩
        rw [applyPairs_cons, applyPairs_cons]
        rw [upsertRow_comm t k p0.1 r p0.2 (fun h => h0 h.symm) hk hmem]
        exact ih (upsertRow t p0.1 p0.2) r hk
          (mem_keys_upsertRow t p0.1 k p0.2 hmem) hin'

/-- A write at a present non-NULL key that the remaining pairs never
touch floats out of the fold. -/
theorem applyPairs_upsert_out (ps : List (SqlVal × List SqlVal)) (k : SqlVal) :
    ∀ (t : List (SqlVal × List SqlVal)) (r : List SqlVal), k ≠ SqlVal.sNull →
      k ∈ t.map Prod.fst → k ∉ ps.map Prod.fst →
      applyPairs (upsertRow t k r) ps = upsertRow (applyPairs t ps) k r := by
  induction ps with
  | nil => intro t r _ _ _; rfl
  | cons p0 ps ih =>
      intro t r hk hmem hnot
      have hne : k ≠ p0.1 := by
        intro h
        exact hnot (List.mem_map.mpr ⟨p0, List.mem_cons_self _ _, h.symm⟩)
      have hnot' : k ∉ ps.map Prod.fst := fun h =>
        hnot (by rw [List.map_cons]; exact List.mem_cons_of_mem _ h)
      rw [applyPairs_cons, applyPairs_cons]
      rw [upsertRow_comm t k p0.1 r p0.2 hne hk hmem]
      exact ih (upsertRow t p0.1 p0.2) r hk
        (mem_keys_upsertRow t p0.1 k p0.2 hmem) hnot'

/-- Core idempotence: re-folding the same bound pairs over the result of
folding them once changes nothing, provided no key is NULL. -/
theorem applyPairs_idem (ps : List (SqlVal × List SqlVal)) :
    ∀ (t : List (SqlVal × List SqlVal)), (∀ p ∈ ps, p.1 ≠ SqlVal.sNull) →
      applyPairs (applyPairs t ps) ps = applyPairs t ps := by
  induction ps with
  | nil => intro t _; rfl
  | cons p0 ps ih =>
      intro t hnn
      have hk : p0.1 ≠ SqlVal.sNull := hnn p0 (List.mem_cons_self _ _)
      have hnn' : ∀ p ∈ ps, p.1 ≠ SqlVal.sNull := fun p hp => hnn p (List.mem_cons_of_mem _ hp)
      have hmem1 : p0.1 ∈ (upsertRow t p0.1 p0.2).map Prod.fst :=
        mem_keys_upsertRow_self t p0.1 p0.2
      have hmem2 : p0.1 ∈ (applyPairs (upsertRow t p0.1 p0.2) ps).map Prod.fst :=
        mem_keys_applyPairs ps p0.1 _ hmem1
      rw [applyPairs_cons]
      rw [applyPairs_cons]
      by_cases hin : p0.1 ∈ ps.map Prod.fst
      · rw [applyPairs_drop ps p0.1 _ p0.2 hk hmem2 hin]
        exact ih (upsertRow t p0.1 p0.2) hnn'
      · rw [applyPairs_upsert_out ps p0.1 _ p0.2 hk hmem2 hin]
        rw [ih (upsertRow t p0.1 p0.2) hnn']
        exact upsertRow_absorb _ p0.1 p0.2 hk hmem2
          (valAt_applyPairs ps p0.1 p0.2 _ hin
            (valAt_upsertRow_self t p0.1 p0.2 hk))

/-- A fully successful `applyMany` is `bindAll` followed by the pure
fold `applyPairs`. -/
theorem applyMany_eq_ok {ρ : Type} (bind1 : ρ → Except PyErr (SqlVal × List SqlVal)) :
    ∀ (b : List ρ) (t t' : List (SqlVal × List SqlVal)),
      applyMany bind1 t b = (t', none) →
      ∃ ps, bindAll bind1 b = .ok ps ∧ t' = applyPairs t ps := by
  intro b
  induction b with
  | nil =>
      intro t t' h
      refine ⟨[], rfl, ?_⟩
      cases h
      rfl
  | cons r rest ih =>
      intro t t' h
      unfold applyMany at h
      cases hb : bind1 r with
      | error e => rw [hb] at h; cases h
      | ok p =>
          rw [hb] at h
          obtain ⟨ps, hps, ht'⟩ := ih (upsertRow t p.1 p.2) t' h
          refine ⟨p :: ps, ?_, ?_⟩
          · unfold bindAll
            rw [hb, except_bind_ok, hps, except_bind_ok, except_pure_eq]
          · rw [ht', applyPairs_cons]

/-- Conversely, when every bind succeeds `applyMany` is the pure fold. -/
theorem applyMany_of_bindAll {ρ : Type} (bind1 : ρ → Except PyErr (SqlVal × List SqlVal)) :
    ∀ (b : List ρ) (ps : List (SqlVal × List SqlVal)) (t : List (SqlVal × List SqlVal)),
      bindAll bind1 b = .ok ps →
      applyMany bind1 t b = (applyPairs t ps, none) := by
  intro b
  induction b with
  | nil =>
      intro ps t h
      cases h
      rfl
  | cons r rest ih =>
      intro ps t h
      unfold bindAll at h
      cases hb : bind1 r with
      | error e => rw [hb, except_bind_err] at h; cases h
      | ok p =>
          rw [hb, except_bind_ok] at h
          cases hrest : bindAll bind1 rest with
          | error e => rw [hrest, except_bind_err] at h; cases h
          | ok ps' =>
              rw [hrest, except_bind_ok, except_pure_eq] at h
              cases h
              unfold applyMany
              rw [hb, applyPairs_cons]
              exact ih ps' (upsertRow t p.1 p.2) hrest

/-- Every bound pair comes from a record of the batch. -/
theorem bindAll_mem {ρ : Type} (bind1 : ρ → Except PyErr (SqlVal × List SqlVal)) :
    ∀ (b : List ρ) (ps : List (SqlVal × List SqlVal)), bindAll bind1 b = .ok ps →
      ∀ p ∈ ps, ∃ r ∈ b, bind1 r = .ok p := by
  intro b
  induction b with
  | nil =>
      intro ps h p hp
      cases h
      cases hp
  | cons r rest ih =>
      intro ps h p hp
      unfold bindAll at h
      cases hb : bind1 r with
      | error e => rw [hb, except_bind_err] at h; cases h
      | ok p0 =>
          rw [hb, except_bind_ok] at h
          cases hrest : bindAll bind1 rest with
          | error e => rw [hrest, except_bind_err] at h; cases h
          | ok ps' =>
              rw [hrest, except_bind_ok, except_pure_eq] at h
              cases h
              rcases List.mem_cons.mp hp with rfl | hp'
              · exact ⟨r, List.mem_cons_self _ _, hb⟩
              · obtain ⟨r', hr', hbr'⟩ := ih ps' hrest p hp'
                exact ⟨r', List.mem_cons_of_mem _ hr', hbr'⟩

/-- Updating a DB field with the value it already holds is the
identity, one lemma per table. -/
theorem db_set_companies_self (d : DB) (t : List (SqlVal × List SqlVal))
    (h : d.companies = t) : { d with companies := t } = d := by
  cases d
  cases h
  rfl

theorem db_set_persons_self (d : DB) (t : List (SqlVal × List SqlVal))
    (h : d.persons = t) : { d with persons := t } = d := by
  cases d
  cases h
  rfl

theorem db_set_invoices_self (d : DB) (t : List (SqlVal × List SqlVal))
    (h : d.invoices = t) : { d with invoices := t } = d := by
  cases d
  cases h
  rfl

theorem db_set_products_self (d : DB) (t : List (SqlVal × List SqlVal))
    (h : d.products = t) : { d with products := t } = d := by
  cases d
  cases h
  rfl

theorem db_set_transactions_self (d : DB) (t : List (SqlVal × List SqlVal))
    (h : d.transactions = t) : { d with transactions := t } = d := by
  cases d
  cases h
  rfl

theorem db_set_accounts_self (d : DB) (t : List (SqlVal × List SqlVal))
    (h : d.accounts = t) : { d with accounts := t } = d := by
  cases d
  cases h
  rfl

/-- Inversion for a successful `Except` bind. -/
theorem except_bind_eq_ok {ε α β : Type} {x : Except ε α} {f : α → Except ε β} {b : β}
    (h : (x >>= f) = .ok b) : ∃ a, x = .ok a ∧ f a = .ok b := by
  cases x with
  | error e => rw [except_bind_err] at h; cases h
  | ok a => rw [except_bind_ok] at h; exact ⟨a, rfl, h⟩

/-- Committing a connection whose pending state is already durable is
the identity. -/
theorem conn_commit_eq (c : Conn) (h : c.committed = c.pending) : Conn.commit c = c := by
  cases c with
  | mk co pe =>
      cases h
      rfl

theorem bindCompanyRow_key (e : CompanyRecord) (p : SqlVal × List SqlVal)
    (h : bindCompanyRow e = .ok p) : p.1 = .sInt e.companyId := by
  unfold bindCompanyRow at h
  obtain ⟨a1, h1, h⟩ := except_bind_eq_ok h
  obtain ⟨a2, h2, h⟩ := except_bind_eq_ok h
  obtain ⟨a3, h3, h⟩ := except_bind_eq_ok h
  obtain ⟨a4, h4, h⟩ := except_bind_eq_ok h
  obtain ⟨a5, h5, h⟩ := except_bind_eq_ok h
  cases h
  rfl

theorem bindPersonRow_key (e : PersonRecord) (p : SqlVal × List SqlVal)
    (h : bindPersonRow e = .ok p) : p.1 = .sInt e.personId := by
  unfold bindPersonRow at h
  obtain ⟨a1, h1, h⟩ := except_bind_eq_ok h
  obtain ⟨a2, h2, h⟩ := except_bind_eq_ok h
  obtain ⟨a3, h3, h⟩ := except_bind_eq_ok h
  obtain ⟨a4, h4, h⟩ := except_bind_eq_ok h
  obtain ⟨a5, h5, h⟩ := except_bind_eq_ok h
  cases h
  rfl

theorem bindInvoiceRow_key (e : InvoiceRecord) (p : SqlVal × List SqlVal)
    (h : bindInvoiceRow e = .ok p) : p.1 = .sInt e.invoiceId := by
  unfold bindInvoiceRow at h
  obtain ⟨a1, h1, h⟩ := except_bind_eq_ok h
  obtain ⟨a2, h2, h⟩ := except_bind_eq_ok h
  obtain ⟨a3, h3, h⟩ := except_bind_eq_ok h
  obtain ⟨a4, h4, h⟩ := except_bind_eq_ok h
  obtain ⟨a5, h5, h⟩ := except_bind_eq_ok h
  obtain ⟨a6, h6, h⟩ := except_bind_eq_ok h
  obtain ⟨a7, h7, h⟩ := except_bind_eq_ok h
  obtain ⟨a8, h8, h⟩ := except_bind_eq_ok h
  cases h
  rfl

theorem bindProductRow_key (e : ProductRecord) (p : SqlVal × List SqlVal)
    (h : bindProductRow e = .ok p) : p.1 = .sInt e.productId := by
  unfold bindProductRow at h
  obtain ⟨a1, h1, h⟩ := except_bind_eq_ok h
  obtain ⟨a2, h2, h⟩ := except_bind_eq_ok h
  obtain ⟨a3, h3, h⟩ := except_bind_eq_ok h
  obtain ⟨a4, h4, h⟩ := except_bind_eq_ok h
  cases h
  rfl

theorem bindAccountRow_key (e : AccountRecord) (p : SqlVal × List SqlVal)
    (h : bindAccountRow e = .ok p) : p.1 = .sText e.accountNo := by
  unfold bindAccountRow at h
  obtain ⟨a1, h1, h⟩ := except_bind_eq_ok h
  cases h
  rfl

/-- Success-path idempotence of `upsert_invoices`: a successful call
processes the whole batch, and running the identical batch again
returns the same count and leaves the connection unchanged. -/
theorem upsert_invoices_idem (c : Conn) (b : List InvoiceRecord) (n : Nat) (c' : Conn)
    (h : upsert_invoices c b = .ok (n, c')) :
    n = b.length ∧ upsert_invoices c' b = .ok (n, c') := by
  unfold upsert_invoices at h ⊢
  by_cases hb : b.isEmpty
  · rw [if_pos hb] at h
    cases h
    rw [if_pos hb]
    exact ⟨(List.isEmpty_iff.mp hb ▸ rfl), rfl⟩
  · rw [if_neg hb] at h
    rcases happ : applyMany bindInvoiceRow c.pending.invoices b with ⟨t', eopt⟩
    rw [happ] at h
    cases eopt with
    | some e => cases h
    | none =>
        obtain ⟨hn, hc'⟩ : n = b.length ∧
            Conn.commit { c with pending := { c.pending with invoices := t' } } = c' := by
          cases h
          exact ⟨rfl, rfl⟩
        obtain ⟨ps, hps, ht'⟩ := applyMany_eq_ok bindInvoiceRow b _ t' happ
        have hnn : ∀ p ∈ ps, p.1 ≠ SqlVal.sNull := by
          intro p hp
          obtain ⟨r, _, hbr⟩ := bindAll_mem bindInvoiceRow b ps hps p hp
          rw [bindInvoiceRow_key r p hbr]
          intro hcon
          cases hcon
        have hpend : c'.pending.invoices = t' := by rw [← hc']; rfl
        have hcp : c'.committed = c'.pending := by rw [← hc']; rfl
        have happ2 : applyMany bindInvoiceRow c'.pending.invoices b = (t', none) := by
          rw [hpend, applyMany_of_bindAll bindInvoiceRow b ps t' hps]
          rw [ht', applyPairs_idem ps _ hnn]
        have hdb : ({ c'.pending with invoices := t' } : DB) = c'.pending :=
          db_set_invoices_self c'.pending t' hpend
        have hfix : Conn.commit { c' with pending := { c'.pending with invoices := t' } } = c' := by
          have h1 : ({ c' with pending := { c'.pending with invoices := t' } } : Conn) = c' := by
            rw [hdb]
          rw [h1, conn_commit_eq c' hcp]
        rw [if_neg hb, happ2]
        refine ⟨hn, ?_⟩
        show Except.ok (b.length,
          Conn.commit { c' with pending := { c'.pending with invoices := t' } }) = .ok (n, c')
        rw [hfix, hn]

/-- Success-path idempotence of `upsert_companies`, as for invoices. -/
theorem upsert_companies_idem (c : Conn) (b : List CompanyRecord) (n : Nat) (c' : Conn)
    (h : upsert_companies c b = .ok (n, c')) :
    n = b.length ∧ upsert_companies c' b = .ok (n, c') := by
  unfold upsert_companies at h ⊢
  by_cases hb : b.isEmpty
  · rw [if_pos hb] at h
    cases h
    rw [if_pos hb]
    exact ⟨(List.isEmpty_iff.mp hb ▸ rfl), rfl⟩
  · rw [if_neg hb] at h
    rcases happ : applyMany bindCompanyRow c.pending.companies b with ⟨t', eopt⟩
    rw [happ] at h
    cases eopt with
    | some e => cases h
    | none =>
        obtain ⟨hn, hc'⟩ : n = b.length ∧
            Conn.commit { c with pending := { c.pending with companies := t' } } = c' := by
          cases h
          exact ⟨rfl, rfl⟩
        obtain ⟨ps, hps, ht'⟩ := applyMany_eq_ok bindCompanyRow b _ t' happ
        have hnn : ∀ p ∈ ps, p.1 ≠ SqlVal.sNull := by
          intro p hp
          obtain ⟨r, hrb, hbr⟩ := bindAll_mem bindCompanyRow b ps hps p hp
          rw [bindCompanyRow_key r p hbr]
          intro hcon
          cases hcon
        have hpend : c'.pending.companies = t' := by rw [← hc']; rfl
        have hcp : c'.committed = c'.pending := by rw [← hc']; rfl
        have happ2 : applyMany bindCompanyRow c'.pending.companies b = (t', none) := by
          rw [hpend, applyMany_of_bindAll bindCompanyRow b ps t' hps]
          rw [ht', applyPairs_idem ps _ hnn]
        have hdb : ({ c'.pending with companies := t' } : DB) = c'.pending :=
          db_set_companies_self c'.pending t' hpend
        have hfix : Conn.commit { c' with pending := { c'.pending with companies := t' } } = c' := by
          have h1 : ({ c' with pending := { c'.pending with companies := t' } } : Conn) = c' := by
            rw [hdb]
          rw [h1, conn_commit_eq c' hcp]
        rw [if_neg hb, happ2]
        refine ⟨hn, ?_⟩
        show Except.ok (b.length,
          Conn.commit { c' with pending := { c'.pending with companies := t' } }) = .ok (n, c')
        rw [hfix, hn]

/-- Success-path idempotence of `upsert_persons`, as for invoices. -/
theorem upsert_persons_idem (c : Conn) (b : List PersonRecord) (n : Nat) (c' : Conn)
    (h : upsert_persons c b = .ok (n, c')) :
    n = b.length ∧ upsert_persons c' b = .ok (n, c') := by
  unfold upsert_persons at h ⊢
  by_cases hb : b.isEmpty
  · rw [if_pos hb] at h
    cases h
    rw [if_pos hb]
    exact ⟨(List.isEmpty_iff.mp hb ▸ rfl), rfl⟩
  · rw [if_neg hb] at h
    rcases happ : applyMany bindPersonRow c.pending.persons b with ⟨t', eopt⟩
    rw [happ] at h
    cases eopt with
    | some e => cases h
    | none =>
        obtain ⟨hn, hc'⟩ : n = b.length ∧
            Conn.commit { c with pending := { c.pending with persons := t' } } = c' := by
          cases h
          exact ⟨rfl, rfl⟩
        obtain ⟨ps, hps, ht'⟩ := applyMany_eq_ok bindPersonRow b _ t' happ
        have hnn : ∀ p ∈ ps, p.1 ≠ SqlVal.sNull := by
          intro p hp
          obtain ⟨r, hrb, hbr⟩ := bindAll_mem bindPersonRow b ps hps p hp
          rw [bindPersonRow_key r p hbr]
          intro hcon
          cases hcon
        have hpend : c'.pending.persons = t' := by rw [← hc']; rfl
        have hcp : c'.committed = c'.pending := by rw [← hc']; rfl
        have happ2 : applyMany bindPersonRow c'.pending.persons b = (t', none) := by
          rw [hpend, applyMany_of_bindAll bindPersonRow b ps t' hps]
          rw [ht', applyPairs_idem ps _ hnn]
        have hdb : ({ c'.pending with persons := t' } : DB) = c'.pending :=
          db_set_persons_self c'.pending t' hpend
        have hfix : Conn.commit { c' with pending := { c'.pending with persons := t' } } = c' := by
          have h1 : ({ c' with pending := { c'.pending with persons := t' } } : Conn) = c' := by
            rw [hdb]
          rw [h1, conn_commit_eq c' hcp]
        rw [if_neg hb, happ2]
        refine ⟨hn, ?_⟩
        show Except.ok (b.length,
          Conn.commit { c' with pending := { c'.pending with persons := t' } }) = .ok (n, c')
        rw [hfix, hn]

/-- Success-path idempotence of `upsert_products`, as for invoices. -/
theorem upsert_products_idem (c : Conn) (b : List ProductRecord) (n : Nat) (c' : Conn)
    (h : upsert_products c b = .ok (n, c')) :
    n = b.length ∧ upsert_products c' b = .ok (n, c') := by
  unfold upsert_products at h ⊢
  by_cases hb : b.isEmpty
  · rw [if_pos hb] at h
    cases h
    rw [if_pos hb]
    exact ⟨(List.isEmpty_iff.mp hb ▸ rfl), rfl⟩
  · rw [if_neg hb] at h
    rcases happ : applyMany bindProductRow c.pending.products b with ⟨t', eopt⟩
    rw [happ] at h
    cases eopt with
    | some e => cases h
    | none =>
        obtain ⟨hn, hc'⟩ : n = b.length ∧
            Conn.commit { c with pending := { c.pending with products := t' } } = c' := by
          cases h
          exact ⟨rfl, rfl⟩
        obtain ⟨ps, hps, ht'⟩ := applyMany_eq_ok bindProductRow b _ t' happ
        have hnn : ∀ p ∈ ps, p.1 ≠ SqlVal.sNull := by
          intro p hp
          obtain ⟨r, hrb, hbr⟩ := bindAll_mem bindProductRow b ps hps p hp
          rw [bindProductRow_key r p hbr]
          intro hcon
          cases hcon
        have hpend : c'.pending.products = t' := by rw [← hc']; rfl
        have hcp : c'.committed = c'.pending := by rw [← hc']; rfl
        have happ2 : applyMany bindProductRow c'.pending.products b = (t', none) := by
          rw [hpend, applyMany_of_bindAll bindProductRow b ps t' hps]
          rw [ht', applyPairs_idem ps _ hnn]
        have hdb : ({ c'.pending with products := t' } : DB) = c'.pending :=
          db_set_products_self c'.pending t' hpend
        have hfix : Conn.commit { c' with pending := { c'.pending with products := t' } } = c' := by
          have h1 : ({ c' with pending := { c'.pending with products := t' } } : Conn) = c' := by
            rw [hdb]
          rw [h1, conn_commit_eq c' hcp]
        rw [if_neg hb, happ2]
        refine ⟨hn, ?_⟩
        show Except.ok (b.length,
          Conn.commit { c' with pending := { c'.pending with products := t' } }) = .ok (n, c')
        rw [hfix, hn]

/-- Success-path idempotence of `upsert_accounts`, as for invoices. -/
theorem upsert_accounts_idem (c : Conn) (b : List AccountRecord) (n : Nat) (c' : Conn)
    (h : upsert_accounts c b = .ok (n, c')) :
    n = b.length ∧ upsert_accounts c' b = .ok (n, c') := by
  unfold upsert_accounts at h ⊢
  by_cases hb : b.isEmpty
  · rw [if_pos hb] at h
    cases h
    rw [if_pos hb]
    exact ⟨(List.isEmpty_iff.mp hb ▸ rfl), rfl⟩
  · rw [if_neg hb] at h
    rcases happ : applyMany bindAccountRow c.pending.accounts b with ⟨t', eopt⟩
    rw [happ] at h
    cases eopt with
    | some e => cases h
    | none =>
        obtain ⟨hn, hc'⟩ : n = b.length ∧
            Conn.commit { c with pending := { c.pending with accounts := t' } } = c' := by
          cases h
          exact ⟨rfl, rfl⟩
        obtain ⟨ps, hps, ht'⟩ := applyMany_eq_ok bindAccountRow b _ t' happ
        have hnn : ∀ p ∈ ps, p.1 ≠ SqlVal.sNull := by
          intro p hp
          obtain ⟨r, hrb, hbr⟩ := bindAll_mem bindAccountRow b ps hps p hp
          rw [bindAccountRow_key r p hbr]
          intro hcon
          cases hcon
        have hpend : c'.pending.accounts = t' := by rw [← hc']; rfl
        have hcp : c'.committed = c'.pending := by rw [← hc']; rfl
        have happ2 : applyMany bindAccountRow c'.pending.accounts b = (t', none) := by
          rw [hpend, applyMany_of_bindAll bindAccountRow b ps t' hps]
          rw [ht', applyPairs_idem ps _ hnn]
        have hdb : ({ c'.pending with accounts := t' } : DB) = c'.pending :=
          db_set_accounts_self c'.pending t' hpend
        have hfix : Conn.commit { c' with pending := { c'.pending with accounts := t' } } = c' := by
          have h1 : ({ c' with pending := { c'.pending with accounts := t' } } : Conn) = c' := by
            rw [hdb]
          rw [h1, conn_commit_eq c' hcp]
        rw [if_neg hb, happ2]
        refine ⟨hn, ?_⟩
        show Except.ok (b.length,
          Conn.commit { c' with pending := { c'.pending with accounts := t' } }) = .ok (n, c')
        rw [hfix, hn]

/-- Success-path idempotence of `upsert_transactions`, provided every
record of the batch binds to a non-NULL primary key (a NULL
`transactionId` would append a fresh row on every run). -/
theorem upsert_transactions_idem (c : Conn) (b : List TransRecord) (n : Nat) (c' : Conn)
    (hkeys : ∀ r ∈ b, ∀ p, bindTransRow r = .ok p → p.1 ≠ SqlVal.sNull)
    (h : upsert_transactions c b = .ok (n, c')) :
    n = b.length ∧ upsert_transactions c' b = .ok (n, c') := by
  unfold upsert_transactions at h ⊢
  by_cases hb : b.isEmpty
  · rw [if_pos hb] at h
    cases h
    rw [if_pos hb]
    exact ⟨(List.isEmpty_iff.mp hb ▸ rfl), rfl⟩
  · rw [if_neg hb] at h
    rcases happ : applyMany bindTransRow c.pending.transactions b with ⟨t', eopt⟩
    rw [happ] at h
    cases eopt with
    | some e => cases h
    | none =>
        obtain ⟨hn, hc'⟩ : n = b.length ∧
            Conn.commit { c with pending := { c.pending with transactions := t' } } = c' := by
          cases h
          exact ⟨rfl, rfl⟩
        obtain ⟨ps, hps, ht'⟩ := applyMany_eq_ok bindTransRow b _ t' happ
        have hnn : ∀ p ∈ ps, p.1 ≠ SqlVal.sNull := by
          intro p hp
          obtain ⟨r, hrb, hbr⟩ := bindAll_mem bindTransRow b ps hps p hp
          exact hkeys r hrb p hbr
        have hpend : c'.pending.transactions = t' := by rw [← hc']; rfl
        have hcp : c'.committed = c'.pending := by rw [← hc']; rfl
        have happ2 : applyMany bindTransRow c'.pending.transactions b = (t', none) := by
          rw [hpend, applyMany_of_bindAll bindTransRow b ps t' hps]
          rw [ht', applyPairs_idem ps _ hnn]
        have hdb : ({ c'.pending with transactions := t' } : DB) = c'.pending :=
          db_set_transactions_self c'.pending t' hpend
        have hfix : Conn.commit { c' with pending := { c'.pending with transactions := t' } } = c' := by
          have h1 : ({ c' with pending := { c'.pending with transactions := t' } } : Conn) = c' := by
            rw [hdb]
          rw [h1, conn_commit_eq c' hcp]
        rw [if_neg hb, happ2]
        refine ⟨hn, ?_⟩
        show Except.ok (b.length,
          Conn.commit { c' with pending := { c'.pending with transactions := t' } }) = .ok (n, c')
        rw [hfix, hn]

/-- C5 (amended): for every upsert function, a successful call processes
the whole batch (the returned count is the number of records, not net
new rows), and the identical batch applied again returns the same count
and leaves the store exactly as it was — unconditionally for companies,
persons, invoices, products and accounts, whose primary keys bind
non-NULL by construction; for transactions under the proviso that every
record's `transactionId` binds to a non-NULL key, since SQLite treats
NULL primary keys as pairwise distinct and would append a fresh row on
every application. -/
theorem c5_upsert_idempotent_amended :
    (∀ (c : Conn) (b : List CompanyRecord) (n : Nat) (c' : Conn),
      upsert_companies c b = .ok (n, c') →
      n = b.length ∧ upsert_companies c' b = .ok (n, c')) ∧
    (∀ (c : Conn) (b : List PersonRecord) (n : Nat) (c' : Conn),
      upsert_persons c b = .ok (n, c') →
      n = b.length ∧ upsert_persons c' b = .ok (n, c')) ∧
    (∀ (c : Conn) (b : List InvoiceRecord) (n : Nat) (c' : Conn),
      upsert_invoices c b = .ok (n, c') →
      n = b.length ∧ upsert_invoices c' b = .ok (n, c')) ∧
    (∀ (c : Conn) (b : List ProductRecord) (n : Nat) (c' : Conn),
      upsert_products c b = .ok (n, c') →
      n = b.length ∧ upsert_products c' b = .ok (n, c')) ∧
    (∀ (c : Conn) (b : List TransRecord) (n : Nat) (c' : Conn),
      (∀ r ∈ b, ∀ p, bindTransRow r = .ok p → p.1 ≠ SqlVal.sNull) →
      upsert_transactions c b = .ok (n, c') →
      n = b.length ∧ upsert_transactions c' b = .ok (n, c')) ∧
    (∀ (c : Conn) (b : List AccountRecord) (n : Nat) (c' : Conn),
      upsert_accounts c b = .ok (n, c') →
      n = b.length ∧ upsert_accounts c' b = .ok (n, c')) :=
  ⟨upsert_companies_idem, upsert_persons_idem, upsert_invoices_idem,
    upsert_products_idem,
    fun c b n c' hkeys h => upsert_transactions_idem c b n c' hkeys h,
    upsert_accounts_idem⟩

/-- C5 (counterexample): a transaction record whose `Id` was absent on
the wire (`transactionId = None`) defeats idempotence — upserting the
same one-record batch twice leaves two rows where one application left
one, because a NULL primary key never conflicts in SQLite. -/
theorem c5_counterexample :
    upsert_transactions Conn.new [nullTransRec] = .ok (1, cT1) ∧
    upsert_transactions cT1 [nullTransRec] = .ok (1, cT2) ∧
    cT1.committed.transactions.length = 1 ∧
    cT2.committed.transactions.length = 2 ∧
    cT2 ≠ cT1 := by
  refine ⟨rfl, rfl, rfl, rfl, ?_⟩
  decide

/-- C5 (witness): the invoice conjunct applied to a concrete one-record
batch on a fresh store. -/
theorem c5_witness : upsert_invoices c5Conn1 [sampleInvoice] = .ok (1, c5Conn1) := by
  have h : upsert_invoices Conn.new [sampleInvoice] = .ok (1, c5Conn1) := rfl
  exact (c5_upsert_idempotent_amended.2.2.1 Conn.new [sampleInvoice] 1 c5Conn1 h).2

/-- C6: `upsert_transactions` is not atomic per batch.  On the two-row
batch whose second record cannot be bound, the call raises after the
first row has been applied to the open transaction, nothing is rolled
back, and the next successful upsert on the same connection (here the
accounts batch) commits the stray row durably — the transactions table
does not return to its pre-call state. -/
theorem c6_partial_batch_survives :
    upsert_transactions Conn.new [c6TransGood, c6TransBad] =
      .error (.sqliteError, c6Conn1) ∧
    c6Conn1.committed.transactions = [] ∧
    c6Conn1.pending.transactions.length = 1 ∧
    (upsert_accounts c6Conn1 [sampleAccount]).map
      (fun p => (p.1, p.2.committed.transactions.length)) = .ok (1, 1) :=
  ⟨rfl, rfl, rfl, rfl⟩

/-- C2 (amended): the orchestrator wraps only the invoices, products,
transactions and accounts blocks in try/except.  Whenever the companies
and persons steps complete, the run always finishes and reports all six
entities, whatever the other four fetches or persists do; but an
exception from the companies or persons block propagates and aborts the
whole run. -/
theorem c2_failure_isolation_amended :
    (∀ (f : Fetches) (conn c1 c2 : Conn) (r1 r2 : EntityResult),
      companiesStep f.companies conn = .ok (c1, r1) →
      personsStep f.persons c1 = .ok (c2, r2) →
      ∃ (cOut : Conn) (r3 r4 r5 r6 : EntityResult),
        runSync f conn = .ok (cOut, [r1, r2, r3, r4, r5, r6])) ∧
    (∀ (f : Fetches) (conn : Conn) (e : PyErr), f.companies = .error e →
      runSync f conn = .error e) ∧
    (∀ (f : Fetches) (conn c1 : Conn) (r1 : EntityResult) (e : PyErr),
      companiesStep f.companies conn = .ok (c1, r1) → f.persons = .error e →
      runSync f conn = .error e) := by
  refine ⟨?_, ?_, ?_⟩
  · intro f conn c1 c2 r1 r2 h1 h2
    simp only [runSync, h1, except_bind_ok, h2]
    exact ⟨_, _, _, _, _, rfl⟩
  · intro f conn e he
    simp only [runSync, companiesStep, he, except_bind_err]
  · intro f conn c1 r1 e h1 h2
    simp only [runSync, h1, except_bind_ok, personsStep, h2, except_bind_err]

/-- C2 (counterexample): a transport failure in the companies fetch
alone aborts the whole run — the invoices that the invoice fetch did
return are never persisted, contradicting the claim that a failure in
any one entity never prevents the remaining syncs. -/
theorem c2_counterexample : runSync c2Fetches Conn.new = .error .transportError := rfl

/-- C2 (witness): with companies and persons succeeding and the invoice
fetch failing, the run still completes. -/
theorem c2_witness : exceptOk (runSync c2OkFetches Conn.new) = true := by
  obtain ⟨cOut, r3, r4, r5, r6, heq⟩ :=
    c2_failure_isolation_amended.1 c2OkFetches Conn.new Conn.new Conn.new .noData .noData rfl rfl
  rw [heq]
  rfl

/-- Boolean `contains` on characters agrees with list membership. -/
theorem contains_char_false_iff (l : List Char) (a : Char) :
    l.contains a = false ↔ a ∉ l := by
  induction l with
  | nil => simp
  | cons c cs ih =>
      simp [List.contains_cons, Bool.or_eq_false_iff, beq_eq_false_iff_ne, ih, not_or]

/-- Characters kept by `takeWhile (· ≠ 'T')` never include `'T'`. -/
theorem takeWhile_ne_not_contains (l : List Char) :
    (l.takeWhile (fun c => c ≠ 'T')).contains 'T' = false := by
  rw [contains_char_false_iff]
  intro hmem
  have h := List.mem_takeWhile_imp hmem
  simp at h

/-- When a character list has no `'T'`, `takeWhile (· ≠ 'T')` is the
whole list. -/
theorem takeWhile_ne_eq_self (l : List Char) (h : l.contains 'T' = false) :
    l.takeWhile (fun c => c ≠ 'T') = l := by
  induction l with
  | nil => rfl
  | cons c cs ih =>
      simp only [List.contains_cons, Bool.or_eq_false_iff] at h
      have hc : ¬c = 'T' := fun hcc => by simp [hcc] at h
      rw [List.takeWhile_cons, if_pos (by simp [hc]), ih h.2]

/-- C3 (amended): a date-only ChangedAfter value is normalized to
midnight by every entity fetch; a value that already carries a time
component is passed through unchanged by the companies, persons,
invoices and products fetches, but the transactions fetch instead keeps
only the text before the first `T` and forces the time to `00:00:00`. -/
theorem c3_filter_normalization_amended :
    (∀ s : String, s.data.contains 'T' = false →
      changedAfterDs s = s ++ "T00:00:00" ∧ transactionsDs s = s ++ "T00:00:00") ∧
    (∀ s : String, s.data.contains 'T' = true → changedAfterDs s = s) ∧
    (∀ s : String, transactionsDs s =
      changedAfterDs (String.mk (s.data.takeWhile (fun c => c ≠ 'T')))) := by
  have hmk : ∀ s : String, String.mk s.data = s := by
    intro s
    cases s
    rfl
  have key : ∀ s : String, transactionsDs s =
      changedAfterDs (String.mk (s.data.takeWhile (fun c => c ≠ 'T'))) := by
    intro s
    unfold transactionsDs changedAfterDs
    rw [if_neg (by
      intro hcon
      have h0 : (String.mk (s.data.takeWhile (fun c => c ≠ 'T'))).data.contains 'T' = false :=
        takeWhile_ne_not_contains s.data
      rw [hcon] at h0
      cases h0)]
  refine ⟨?_, ?_, key⟩
  · intro s h
    constructor
    · unfold changedAfterDs
      rw [if_neg (by rw [h]; simp)]
    · rw [key s, takeWhile_ne_eq_self s.data h, hmk s]
      unfold changedAfterDs
      rw [if_neg (by rw [h]; simp)]
  · intro s h
    unfold changedAfterDs
    rw [if_pos h]

/-- C3 (counterexample): a ChangedAfter value with a time component is
not passed through unchanged by the transactions fetch — its time part
is truncated to midnight. -/
theorem c3_counterexample :
    transactionsDs "2024-01-01T08:00:00" = "2024-01-01T00:00:00" ∧
    transactionsDs "2024-01-01T08:00:00" ≠ "2024-01-01T08:00:00" := by
  refine ⟨by decide, by decide⟩

/-- C3 (witness): the amended theorem instantiated at a date-only value
and at a time-bearing value. -/
theorem c3_witness :
    changedAfterDs "2024-01-01" = "2024-01-01T00:00:00" ∧
    transactionsDs "2024-01-01" = "2024-01-01T00:00:00" ∧
    changedAfterDs "2024-01-01T08:00:00" = "2024-01-01T08:00:00" := by
  obtain ⟨h1, h2⟩ := c3_filter_normalization_amended.1 "2024-01-01" (by decide)
  exact ⟨h1.trans (by decide), h2.trans (by decide),
    c3_filter_normalization_amended.2.1 "2024-01-01T08:00:00" (by decide)⟩

/-- C4 (amended): only the invoice extractor excludes records whose
primary key resolves to 0; every record it returns has a non-zero
`invoiceId`.  The person, company, product and transaction extractors
return one record per raw item with no filtering at all, so id-0
persons/companies/products and null-id transactions flow through to the
upsert store. -/
theorem c4_pk_filter_amended :
    (∀ (items : List (List (String × Value))) (res : List InvoiceRecord),
      extractInvoices items = .ok res → ∀ r ∈ res, r.invoiceId ≠ 0) ∧
    (∀ (items : List (List (String × Value))) (res : List PersonRecord),
      extractPersons items = .ok res → res.length = items.length) ∧
    (∀ (items : List (List (String × Value))) (res : List CompanyRecord),
      extractCompanies items = .ok res → res.length = items.length) ∧
    (∀ (items : List (List (String × Value))) (res : List ProductRecord),
      extractProducts items = .ok res → res.length = items.length) ∧
    (∀ (items : List (List (String × Value))) (res : List TransRecord),
      extractTransactions items = .ok res → res.length = items.length) := by
  refine ⟨?_, ?_, ?_, ?_, ?_⟩
  · intro items res h r hr
    unfold extractInvoices at h
    obtain ⟨invs, hm, hp⟩ := except_bind_eq_ok h
    rw [except_pure_eq] at hp
    cases hp
    have := (List.mem_filter.mp hr).2
    exact fun hzero => by simp [hzero] at this
  · intro items res h
    exact mapM_ok_length extractPersonItem items res h
  · intro items res h
    exact mapM_ok_length extractCompanyItem items res h
  · intro items res h
    exact mapM_ok_length extractProductItem items res h
  · intro items res h
    exact mapM_ok_length extractTransactionItem items res h

/-- C4 (counterexample): a raw person item with no `Id` is extracted as
a record with `personId = 0` and kept; a raw transaction item with no
`Id` is extracted with `transactionId = None` and kept.  Neither is
excluded before persistence. -/
theorem c4_counterexample :
    (extractPersons [[]]).map (fun l => l.map (fun r => r.personId)) = .ok [0] ∧
    (extractTransactions [[]]).map (fun l => l.map (fun r => r.transactionId)) =
      .ok [none] := ⟨rfl, rfl⟩

/-- C4 (witness): the invoice filter keeps only non-zero ids on the
concrete two-item batch, and the person extractor returns one record
for one raw item. -/
theorem c4_witness : c4Head.invoiceId ≠ 0 ∧ c4PRes.length = 1 := by
  have hInv : extractInvoices c4Items = .ok c4Res := rfl
  have hMem : c4Head ∈ c4Res := by
    have hres : c4Res = [c4Head] := rfl
    rw [hres]
    exact List.mem_singleton.mpr rfl
  exact ⟨c4_pk_filter_amended.1 c4Items c4Res hInv c4Head hMem,
    c4_pk_filter_amended.2.1 [[]] c4PRes rfl⟩

/-- C7: shape normalization at the wire boundary.  For an absent key,
`v` (the scalar normalizer) yields null and the `listOf` boundary
pattern yields the empty list; a non-list scalar or object passes
through `v` unchanged; `v` on a non-empty list takes the first element;
`listOf` wraps a bare (non-empty) object into a one-element list and
returns a list value unchanged. -/
theorem c7_wire_shape_normalization :
    (∀ (node : List (String × Value)) (key : String), Value.get node key = none →
      v node key = .ok .vNull ∧ listOf (.vDict node) [key] = .vList []) ∧
    (∀ (node : List (String × Value)) (key : String) (x : Value),
      Value.get node key = some x → (∀ l, x ≠ .vList l) → v node key = .ok x) ∧
    (∀ (node : List (String × Value)) (key : String) (a : Value) (rest : List Value),
      Value.get node key = some (.vList (a :: rest)) → v node key = .ok a) ∧
    (∀ (node : List (String × Value)) (key : String) (d : List (String × Value)),
      Value.get node key = some (.vDict d) → d ≠ [] →
      listOf (.vDict node) [key] = .vList [.vDict d]) ∧
    (∀ (node : List (String × Value)) (key : String) (l : List Value),
      Value.get node key = some (.vList l) → listOf (.vDict node) [key] = .vList l) := by
  refine ⟨?_, ?_, ?_, ?_, ?_⟩
  · intro node key h
    constructor
    · unfold v
      rw [h]
    · unfold listOf
      simp only [List.foldl, Value.getD, h]
      rfl
  · intro node key x h hx
    unfold v
    rw [h]
    cases x with
    | vNull => rfl
    | vStr s => rfl
    | vBool b => rfl
    | vList l => exact absurd rfl (hx l)
    | vDict d => rfl
  · intro node key a rest h
    unfold v
    rw [h]
  · intro node key d h hd
    unfold listOf
    simp only [List.foldl, Value.getD, h]
    have htr : (Value.vDict d).truthy = true := by
      simp [Value.truthy, List.isEmpty_iff, hd]
    simp [pyOr, Value.truthy, List.isEmpty_iff, hd]
  · intro node key l h
    unfold listOf
    simp only [List.foldl, Value.getD, h]
    cases l with
    | nil => rfl
    | cons a rest => simp [pyOr, Value.truthy]

/-- C7 (witness): the five conjuncts at concrete nodes. -/
theorem c7_witness :
    v [("a", Value.vStr "x")] "b" = .ok .vNull ∧
    listOf (Value.vDict [("a", Value.vStr "x")]) ["b"] = .vList [] ∧
    v [("a", Value.vStr "x")] "a" = .ok (Value.vStr "x") ∧
    v [("a", Value.vList [Value.vStr "x", Value.vStr "y"])] "a" = .ok (Value.vStr "x") ∧
    listOf (Value.vDict [("a", Value.vDict [("z", Value.vStr "1")])]) ["a"] =
      .vList [Value.vDict [("z", Value.vStr "1")]] ∧
    listOf (Value.vDict [("a", Value.vList [Value.vStr "x", Value.vStr "y"])]) ["a"] =
      .vList [Value.vStr "x", Value.vStr "y"] := by
  obtain ⟨habs, hlabs⟩ := c7_wire_shape_normalization.1 [("a", Value.vStr "x")] "b" rfl
  refine ⟨habs, hlabs,
    c7_wire_shape_normalization.2.1 [("a", Value.vStr "x")] "a" (Value.vStr "x") rfl
      (fun l hl => Value.noConfusion hl),
    c7_wire_shape_normalization.2.2.1 _ "a" (Value.vStr "x") [Value.vStr "y"] rfl,
    c7_wire_shape_normalization.2.2.2.1 _ "a" [("z", Value.vStr "1")] rfl
      (fun hl => List.noConfusion hl),
    c7_wire_shape_normalization.2.2.2.2 _ "a" [Value.vStr "x", Value.vStr "y"] rfl⟩

/-- C8 (amended): per dimension item, `extract_dimensions` selects by a
case-insensitive `Type` match and parses the id with `int`.  A missing
or falsy id, or a string id that raises ValueError, is dropped silently
leaving the field null; but only ValueError is caught — an id of
non-scalar shape (a list or dict, as a repeated or attributed element
would produce) raises an uncaught TypeError instead of being dropped.
The fold keeps at most one id per dimension type (the last match
wins). -/
theorem c8_dimension_extraction_amended :
    (∀ (dims : Dims) (dd : List (String × Value)) (ts : String),
      pyLower (pyOr (Value.getD dd "Type") (.vStr "")) = .ok ts →
      (pyOr (pyOr (Value.getD dd "Id") (Value.getD dd "Value")) .vNull).truthy = false →
      dimStep dims (.vDict dd) = .ok dims) ∧
    (∀ (dims : Dims) (dd : List (String × Value)) (ts : String) (s : String),
      pyLower (pyOr (Value.getD dd "Type") (.vStr "")) = .ok ts →
      pyOr (pyOr (Value.getD dd "Id") (Value.getD dd "Value")) .vNull = .vStr s →
      intOfStr s = none →
      dimStep dims (.vDict dd) = .ok dims) ∧
    (∀ (dims : Dims) (dd : List (String × Value)) (ts : String) (l : List Value),
      pyLower (pyOr (Value.getD dd "Type") (.vStr "")) = .ok ts →
      pyOr (pyOr (Value.getD dd "Id") (Value.getD dd "Value")) .vNull = .vList l →
      l ≠ [] →
      dimStep dims (.vDict dd) = .error .typeError) ∧
    (∀ (dims : Dims) (dd : List (String × Value)) (ts : String) (s : String) (n : Int),
      pyLower (pyOr (Value.getD dd "Type") (.vStr "")) = .ok ts →
      pyOr (pyOr (Value.getD dd "Id") (Value.getD dd "Value")) .vNull = .vStr s →
      intOfStr s = some n →
      dimStep dims (.vDict dd) =
        .ok (if ts == "customer" then { dims with customerId := some n }
          else if ts == "project" then { dims with projectId := some n }
          else if ts == "department" then { dims with departmentId := some n }
          else dims)) ∧
    (∀ items : List Value,
      extract_dimensions [("Dimensions", Value.vDict [("Dimension", Value.vList items)])] =
        items.foldlM dimStep dims0) := by
  refine ⟨?_, ?_, ?_, ?_, ?_⟩
  · intro dims dd ts hts hid
    unfold dimStep
    simp only [except_pure_eq, except_bind_ok, hts, hid]
    rfl
  · intro dims dd ts s hts hid hparse
    unfold dimStep
    simp only [except_pure_eq, except_bind_ok, hts, hid]
    by_cases hs : s = ""
    · subst hs
      rfl
    · have htr : (Value.vStr s).truthy = true := by simp [Value.truthy, hs]
      simp only [htr, Bool.not_true, Bool.false_eq_true, if_false]
      simp [pyInt, hparse]
  · intro dims dd ts l hts hid hl
    unfold dimStep
    simp only [except_pure_eq, except_bind_ok, hts, hid]
    have htr : (Value.vList l).truthy = true := by simp [Value.truthy, List.isEmpty_iff, hl]
    simp only [htr, Bool.not_true, Bool.false_eq_true, if_false]
    rfl
  · intro dims dd ts s n hts hid hparse
    unfold dimStep
    simp only [except_pure_eq, except_bind_ok, hts, hid]
    have hs : ¬s = "" := by
      intro hempty
      subst hempty
      cases hparse
    have htr : (Value.vStr s).truthy = true := by simp [Value.truthy, hs]
    simp only [htr, Bool.not_true, Bool.false_eq_true, if_false]
    simp [pyInt, hparse]
  · intro items
    cases items with
    | nil => rfl
    | cons a rest => rfl

/-- C8 (counterexample): a dimension whose `Id` arrived as a repeated
element (a two-element list) makes `extract_dimensions` raise TypeError
instead of dropping the dimension silently. -/
theorem c8_counterexample :
    extract_dimensions [("Dimensions", Value.vDict [("Dimension", Value.vList
      [Value.vDict [("Type", Value.vStr "customer"),
        ("Id", Value.vList [Value.vStr "7", Value.vStr "8"])]])])] =
      .error .typeError := rfl

/-- C8 (witness): the amended conjuncts at concrete dimension items — a
capitalised `Type` still matches, an unparsable string id is dropped,
and a missing id is dropped. -/
theorem c8_witness :
    dimStep dims0 (Value.vDict [("Type", Value.vStr "Customer"), ("Id", Value.vStr "42")]) =
      .ok { dims0 with customerId := some 42 } ∧
    dimStep dims0 (Value.vDict [("Type", Value.vStr "customer"), ("Id", Value.vStr "x7")]) =
      .ok dims0 ∧
    dimStep dims0 (Value.vDict [("Type", Value.vStr "customer")]) = .ok dims0 := by
  have h4 := c8_dimension_extraction_amended.2.2.2.1 dims0
    [("Type", Value.vStr "Customer"), ("Id", Value.vStr "42")] "customer" "42" 42 rfl rfl rfl
  have h2 := c8_dimension_extraction_amended.2.1 dims0
    [("Type", Value.vStr "customer"), ("Id", Value.vStr "x7")] "customer" "x7" rfl rfl rfl
  have h1 := c8_dimension_extraction_amended.1 dims0
    [("Type", Value.vStr "customer")] "customer" rfl rfl
  exact ⟨h4, h2, h1⟩

/-- C9: the scalar normalizer `v` is not total — a key bound to an
empty list makes `val[0]` raise IndexError, and an extractor applying it
to such a key (here the invoice extractor on `Paid`) fails instead of
treating the value as absent. -/
theorem c9_scalar_normalizer_not_total :
    (∀ (d : List (String × Value)) (key : String),
      Value.get d key = some (.vList []) → v d key = .error .indexError) ∧
    (∀ inv : List (String × Value), Value.get inv "Paid" = some (.vList []) →
      exceptOk (extractInvoiceItem inv) = false) := by
  constructor
  · intro d key h
    unfold v
    rw [h]
  · intro inv h
    have hp : v inv "Paid" = .error .indexError := by
      unfold v
      rw [h]
    unfold extractInvoiceItem
    cases hc : currencySymbolOf inv with
    | error e => simp [hc, except_bind_err, exceptOk]
    | ok cs => simp [hc, except_bind_ok, hp, except_bind_err, exceptOk]

/-- C9 (witness): a concrete empty-list value under the key. -/
theorem c9_witness :
    v [("k", Value.vList [])] "k" = .error .indexError ∧
    exceptOk (extractInvoiceItem [("Paid", Value.vList [])]) = false :=
  ⟨c9_scalar_normalizer_not_total.1 [("k", Value.vList [])] "k" rfl,
    c9_scalar_normalizer_not_total.2 [("Paid", Value.vList [])] rfl⟩

/-- The freshly upserted row is in the table. -/
theorem mem_upsertRow_self (t : List (SqlVal × List SqlVal)) (k : SqlVal)
    (r : List SqlVal) : (k, r) ∈ upsertRow t k r := by
  unfold upsertRow
  split
  · rename_i hc
    obtain ⟨q, hq, hqk⟩ := List.any_eq_true.mp hc.2
    exact List.mem_map.mpr ⟨q, hq, by rw [if_pos hqk]⟩
  · exact List.mem_append_right _ (List.mem_singleton.mpr rfl)

/-- Batches that bind identically upsert identically. -/
theorem applyMany_map_congr {ρ : Type} (bind1 : ρ → Except PyErr (SqlVal × List SqlVal))
    (g : ρ → ρ) (hb : ∀ r, bind1 (g r) = bind1 r) :
    ∀ (b : List ρ) (t : List (SqlVal × List SqlVal)),
      applyMany bind1 t (b.map g) = applyMany bind1 t b := by
  intro b
  induction b with
  | nil => intro t; rfl
  | cons r rest ih =>
      intro t
      cases hbr : bind1 r with
      | error e => simp [applyMany, List.map_cons, hb, hbr]
      | ok p => simp [applyMany, List.map_cons, hb, hbr, ih]

/-- C10: `upsert_invoices` binds only the fifteen `invoices_sync`
columns.  Rewriting the derived fields `amountPaid`, `balance`,
`dateDue`, `datePaid` and `isCredited` of every record in a batch
changes nothing about the persistence call, while the bound row carries
each of the fifteen named fields intact, and a successful single-record
upsert leaves exactly that bound row durably stored under the record's
`invoiceId`. -/
theorem c10_derived_fields_not_persisted :
    (∀ (c : Conn) (b : List InvoiceRecord) (g : InvoiceRecord → InvoiceRecord),
      (∀ e, (g e).invoiceId = e.invoiceId ∧ (g e).orderId = e.orderId ∧
        (g e).customerId = e.customerId ∧ (g e).customerName = e.customerName ∧
        (g e).invoiceNo = e.invoiceNo ∧ (g e).supplierName = e.supplierName ∧
        (g e).supplierOrgNo = e.supplierOrgNo ∧ (g e).invoiceText = e.invoiceText ∧
        (g e).dateInvoiced = e.dateInvoiced ∧ (g e).dateChanged = e.dateChanged ∧
        (g e).totalIncVat = e.totalIncVat ∧ (g e).totalVat = e.totalVat ∧
        (g e).currencySymbol = e.currencySymbol ∧ (g e).status = e.status ∧
        (g e).externalStatus = e.externalStatus) →
      upsert_invoices c (b.map g) = upsert_invoices c b) ∧
    (∀ (e : InvoiceRecord) (p : SqlVal × List SqlVal), bindInvoiceRow e = .ok p →
      p.1 = .sInt e.invoiceId ∧
      ∃ cn ino sn so itx di dc cs,
        bindVal e.customerName = .ok cn ∧ bindVal e.invoiceNo = .ok ino ∧
        bindVal e.supplierName = .ok sn ∧ bindVal e.supplierOrgNo = .ok so ∧
        bindVal e.invoiceText = .ok itx ∧ bindVal e.dateInvoiced = .ok di ∧
        bindVal e.dateChanged = .ok dc ∧ bindVal e.currencySymbol = .ok cs ∧
        p.2 = [bindOptInt e.orderId, bindOptInt e.customerId, cn, ino, sn, so, itx, di,
          dc, .sReal e.totalIncVat, .sReal e.totalVat, cs, .sText e.status,
          .sText e.externalStatus]) ∧
    (∀ (c : Conn) (e : InvoiceRecord) (n : Nat) (c' : Conn),
      upsert_invoices c [e] = .ok (n, c') →
      ∃ p, bindInvoiceRow e = .ok p ∧ p ∈ c'.committed.invoices) := by
  refine ⟨?_, ?_, ?_⟩
  · intro c b g hg
    have hb : ∀ e, bindInvoiceRow (g e) = bindInvoiceRow e := by
      intro e
      obtain ⟨h1, h2, h3, h4, h5, h6, h7, h8, h9, h10, h11, h12, h13, h14, h15⟩ := hg e
      unfold bindInvoiceRow
      rw [h1, h2, h3, h4, h5, h6, h7, h8, h9, h10, h11, h12, h13, h14, h15]
    unfold upsert_invoices
    have hemp : (b.map g).isEmpty = b.isEmpty := by cases b <;> rfl
    rw [hemp]
    by_cases he : b.isEmpty
    · rw [if_pos he, if_pos he]
    · rw [if_neg he, if_neg he,
        applyMany_map_congr bindInvoiceRow g hb b c.pending.invoices, List.length_map]
  · intro e p h
    unfold bindInvoiceRow at h
    obtain ⟨cn, h1, h⟩ := except_bind_eq_ok h
    obtain ⟨ino, h2, h⟩ := except_bind_eq_ok h
    obtain ⟨sn, h3, h⟩ := except_bind_eq_ok h
    obtain ⟨so, h4, h⟩ := except_bind_eq_ok h
    obtain ⟨itx, h5, h⟩ := except_bind_eq_ok h
    obtain ⟨di, h6, h⟩ := except_bind_eq_ok h
    obtain ⟨dc, h7, h⟩ := except_bind_eq_ok h
    obtain ⟨cs, h8, h⟩ := except_bind_eq_ok h
    cases h
    exact ⟨rfl, cn, ino, sn, so, itx, di, dc, cs, h1, h2, h3, h4, h5, h6, h7, h8, rfl⟩
  · intro c e n c' h
    unfold upsert_invoices at h
    rw [if_neg (by simp)] at h
    cases hbe : bindInvoiceRow e with
    | error err => simp [applyMany, hbe] at h
    | ok p =>
        obtain ⟨k, row⟩ := p
        simp only [applyMany, hbe] at h
        cases h
        exact ⟨(k, row), rfl, mem_upsertRow_self c.pending.invoices k row⟩

/-- C10 (witness): rewriting the five derived fields of a concrete
record changes nothing about the persistence call. -/
theorem c10_witness :
    upsert_invoices Conn.new ([sampleInvoice].map c10Mod) =
      upsert_invoices Conn.new [sampleInvoice] :=
  c10_derived_fields_not_persisted.1 Conn.new [sampleInvoice] c10Mod
    (fun _ => ⟨rfl, rfl, rfl, rfl, rfl, rfl, rfl, rfl, rfl, rfl, rfl, rfl, rfl, rfl, rfl⟩)

/-- The code's `_to_bool` agrees with the claim's wording when that
wording holds. -/
theorem to_bool_one_of_spec (x : Value) (h : isCreditedTrueSpec x = true) :
    to_bool x = 1 := by
  cases x with
  | vNull => cases h
  | vBool b =>
      cases b with
      | true => rfl
      | false => cases h
  | vList l => cases h
  | vDict d => cases h
  | vStr s =>
      by_cases hs : s = ""
      · subst hs
        exact absurd h (by decide)
      · simp only [isCreditedTrueSpec] at h
        simp only [to_bool]
        rw [if_neg (by simp [hs]), if_pos h]

/-- The code's `_to_bool` agrees with the claim's wording when that
wording fails. -/
theorem to_bool_zero_of_not_spec (x : Value) (h : isCreditedTrueSpec x = false) :
    to_bool x = 0 := by
  cases x with
  | vNull => rfl
  | vBool b =>
      cases b with
      | true => cases h
      | false => rfl
  | vList l => rfl
  | vDict d => rfl
  | vStr s =>
      by_cases hs : s = ""
      · subst hs
        rfl
      · simp only [isCreditedTrueSpec] at h
        simp only [to_bool]
        rw [if_neg (by simp [hs]), if_neg (by simp [h])]

/-- The code's `paid_date and paid_date.strip()` test, evaluated on
`_v(inv, "Paid") or ""`, agrees with the claim's non-blank-after-strip
wording whenever it returns at all. -/
theorem paidNonBlank_spec (x : Value) (b : Bool)
    (h : paidNonBlank (pyOr x (.vStr "")) = .ok b) : b = paidPresentSpec x := by
  cases x with
  | vNull => cases h; rfl
  | vBool bb =>
      cases bb with
      | false => cases h; rfl
      | true => cases h
  | vList l =>
      cases l with
      | nil => cases h; rfl
      | cons a rest => cases h
  | vDict d =>
      cases d with
      | nil => cases h; rfl
      | cons a rest => cases h
  | vStr s =>
      by_cases hs : s = ""
      · subst hs
        cases h
        rfl
      · have hbeq : (s == "") = false := beq_eq_false_iff_ne.mpr hs
        have hred : paidNonBlank (pyOr (.vStr s) (.vStr "")) =
            .ok (!(pyStripStr s == "")) := by
          simp [paidNonBlank, pyOr, Value.truthy, pyStrip, hbeq, except_pure_eq,
            except_bind_ok]
        rw [hred] at h
        cases h
        rfl

/-- C1: whenever the invoice extractor produces a record, its `status`,
`balance` and `amountPaid` follow the strict precedence of the claim:
a credited flag (boolean true, or a string lower-casing to `true`, `1`
or `yes`) forces Credited with zero balance and zero paid; otherwise a
`Paid` field that is non-blank after stripping whitespace forces Paid
with zero balance and `amountPaid = totalIncVat`; otherwise the record
is Unpaid with `balance = totalIncVat` and zero paid. -/
theorem c1_invoice_status_precedence :
    ∀ (inv : List (String × Value)) (r : InvoiceRecord) (credRaw paidRaw : Value),
      extractInvoiceItem inv = .ok r →
      v inv "IsCredited" = .ok credRaw →
      v inv "Paid" = .ok paidRaw →
      ((isCreditedTrueSpec credRaw = true →
        r.status = "Credited" ∧ r.balance = PFloat.zero ∧ r.amountPaid = PFloat.zero) ∧
       (isCreditedTrueSpec credRaw = false → paidPresentSpec paidRaw = true →
        r.status = "Paid" ∧ r.balance = PFloat.zero ∧ r.amountPaid = r.totalIncVat) ∧
       (isCreditedTrueSpec credRaw = false → paidPresentSpec paidRaw = false →
        r.status = "Unpaid" ∧ r.balance = r.totalIncVat ∧ r.amountPaid = PFloat.zero)) := by
  intro inv r credRaw paidRaw h hcredv hpaidv
  unfold extractInvoiceItem at h
  obtain ⟨cs, hcs, h⟩ := except_bind_eq_ok h
  obtain ⟨paidRaw', hpd, h⟩ := except_bind_eq_ok h
  rw [hpaidv] at hpd
  cases hpd
  obtain ⟨credRaw', hcr, h⟩ := except_bind_eq_ok h
  rw [hcredv] at hcr
  cases hcr
  obtain ⟨totalRaw, htot, h⟩ := except_bind_eq_ok h
  obtain ⟨osRaw, hos, h⟩ := except_bind_eq_ok h
  obtain ⟨st, hst, h⟩ := except_bind_eq_ok h
  obtain ⟨x7, h7, h⟩ := except_bind_eq_ok h
  obtain ⟨x8, h8, h⟩ := except_bind_eq_ok h
  obtain ⟨x9, h9, h⟩ := except_bind_eq_ok h
  obtain ⟨x10, h10, h⟩ := except_bind_eq_ok h
  obtain ⟨x11, h11, h⟩ := except_bind_eq_ok h
  obtain ⟨x12, h12, h⟩ := except_bind_eq_ok h
  obtain ⟨x13, h13, h⟩ := except_bind_eq_ok h
  obtain ⟨x14, h14, h⟩ := except_bind_eq_ok h
  obtain ⟨x15, h15, h⟩ := except_bind_eq_ok h
  obtain ⟨x16, h16, h⟩ := except_bind_eq_ok h
  obtain ⟨x17, h17, h⟩ := except_bind_eq_ok h
  obtain ⟨x18, h18, h⟩ := except_bind_eq_ok h
  obtain ⟨x19, h19, h⟩ := except_bind_eq_ok h
  obtain ⟨x20, h20, h⟩ := except_bind_eq_ok h
  obtain ⟨x21, h21, h⟩ := except_bind_eq_ok h
  obtain ⟨x22, h22, h⟩ := except_bind_eq_ok h
  obtain ⟨x23, h23, h⟩ := except_bind_eq_ok h
  cases h
  refine ⟨?_, ?_, ?_⟩
  · intro hcred
    unfold invoiceStatus at hst
    rw [to_bool_one_of_spec credRaw hcred] at hst
    rw [if_pos (by decide : (1 : Int) ≠ 0)] at hst
    cases hst
    exact ⟨rfl, rfl, rfl⟩
  · intro hcred hpaid
    unfold invoiceStatus at hst
    rw [to_bool_zero_of_not_spec credRaw hcred] at hst
    rw [if_neg (by decide : ¬(0 : Int) ≠ 0)] at hst
    obtain ⟨b, hb, hbp⟩ := except_bind_eq_ok hst
    have hbs : b = paidPresentSpec paidRaw := paidNonBlank_spec paidRaw b hb
    rw [hpaid] at hbs
    subst hbs
    cases hbp
    exact ⟨rfl, rfl, rfl⟩
  · intro hcred hpaid
    unfold invoiceStatus at hst
    rw [to_bool_zero_of_not_spec credRaw hcred] at hst
    rw [if_neg (by decide : ¬(0 : Int) ≠ 0)] at hst
    obtain ⟨b, hb, hbp⟩ := except_bind_eq_ok hst
    have hbs : b = paidPresentSpec paidRaw := paidNonBlank_spec paidRaw b hb
    rw [hpaid] at hbs
    subst hbs
    cases hbp
    exact ⟨rfl, rfl, rfl⟩

/-- C1 (witness): a concrete credited invoice item (string flag `TRUE`,
with a payment date present that the credited branch overrides). -/
theorem c1_witness :
    extractInvoiceItem c1Item = .ok c1Rec ∧ c1Rec.status = "Credited" ∧
    c1Rec.balance = PFloat.zero ∧ c1Rec.amountPaid = PFloat.zero := by
  have h : extractInvoiceItem c1Item = .ok c1Rec := rfl
  obtain ⟨hc, _, _⟩ := c1_invoice_status_precedence c1Item c1Rec (Value.vStr "TRUE")
    (Value.vStr "2024-01-01") h rfl rfl
  obtain ⟨h1, h2, h3⟩ := hc (by decide)
  exact ⟨h, h1, h2, h3⟩
